import Mathlib

/-!
Verification of the offline-emergency-chat mesh messaging engine.

The definitions below are a shallow embedding of the TypeScript source:

* `src/utils/messageEnvelope.ts` — the wire codec (`createEnvelope`,
  `serializeEnvelope`, `deserializeEnvelope`, `validateEnvelope`);
* `src/utils/duplicateDetection.ts` — the `DuplicateDetector` cache;
* `src/services/MessageService.ts` — send path, receive path, relay,
  retry queue;
* `src/utils/constants.ts` — the configuration constants.

JavaScript `Uint8Array`s are embedded as `List Nat` whose elements are
below 256 (the bound is carried as a hypothesis where it matters);
JavaScript numbers are embedded at integer granularity (`Nat`, or `Int`
where negative values are reachable, e.g. the `ttl` field after the relay
decrement); JavaScript `Map`s are embedded as insertion-ordered
association lists; thrown exceptions are embedded as `Except`.
External collaborators (libsodium crypto, AsyncStorage, the BLE stack)
are embedded as explicit oracle parameters.
-/

deriving instance DecidableEq for Except

namespace EmergencyChat

/-! ## Constants (`src/utils/constants.ts`) -/

def MAX_MESSAGE_LENGTH : Nat := 500

def INITIAL_MESSAGE_TTL : Nat := 10

def CACHE_EXPIRATION_MS : Nat := 300000

def MAX_CACHE_ENTRIES : Nat := 1000

def MAX_SEND_RETRIES : Nat := 3

def RETRY_BASE_DELAY_MS : Nat := 1000

def MESSAGE_ENVELOPE_VERSION : Nat := 1

/-! ## Data model (`src/context/types.ts`) -/

/-- The `MessageEnvelope` interface from `types.ts`.  `ttl` is an `Int`
because the JavaScript field is a plain number and the relay path
computes `ttl - 1`, which would be negative for a zero-TTL input. -/
structure MessageEnvelope where
  version : Nat
  messageId : String
  senderId : String
  recipientId : String
  timestamp : Nat
  ttl : Int
  encryptedPayload : List Nat
  nonce : List Nat
  tag : List Nat
deriving DecidableEq

/-- The `EncryptedMessage` interface from `types.ts`. -/
structure EncryptedMessage where
  ciphertext : List Nat
  nonce : List Nat
  tag : List Nat
deriving DecidableEq

/-- The `Message` interface from `types.ts`. -/
structure Message where
  id : String
  peerId : String
  text : String
  timestamp : Nat
  sent : Bool
  delivered : Bool
  failed : Bool
deriving DecidableEq

/-- The `Peer` interface from `types.ts`. -/
structure Peer where
  id : String
  publicKey : Option (List Nat)
  sharedSecret : Option (List Nat)
  name : String
  connected : Bool
  verified : Bool
  rssi : Int
  lastSeen : Nat
deriving DecidableEq

/-! ## Byte-level helpers

`toBytesBE k n` is the sequence of `k` bytes written by the big-endian
`DataView` setters (`setUint8`/`setUint16`/`setUint32`/`setBigUint64`)
for the value `n` (already reduced modulo `2^(8*k)` by the setter);
`readBE` is the matching big-endian read. -/

def toBytesBE : Nat → Nat → List Nat
  | 0, _ => []
  | k + 1, n => toBytesBE k (n / 256) ++ [n % 256]

def readBE (l : List Nat) : Nat :=
  l.foldl (fun acc b => acc * 256 + b) 0

/-- The sixteen lowercase hexadecimal digit characters, `'0'` to `'f'`. -/
def lowerHexDigits : List Char :=
  (List.range 16).map Nat.digitChar

/-- The sixteen uppercase hexadecimal digit characters (also accepted by
JavaScript `parseInt(s, 16)`). -/
def upperHexDigits : List Char :=
  (List.range 16).map (fun i => (Nat.digitChar i).toUpper)

/-- Numeric value of one hexadecimal digit character, either case. -/
def hexVal? (c : Char) : Option Nat :=
  match lowerHexDigits.findIdx? (· = c) with
  | some i => some i
  | none => upperHexDigits.findIdx? (· = c)

/-- The call `parseInt(two-character-string, 16)` as used by the codec, followed by
the `Uint8Array` element store.  `parseInt` parses the longest prefix of
hex digits; an empty prefix gives `NaN`, which the typed-array store maps
to `0`.  (The sign/whitespace/`0x` forms of `parseInt` are not modelled:
every call site feeds exactly two characters taken from an id string.) -/
def jsParseHex2 (c₁ c₂ : Char) : Nat :=
  match hexVal? c₁ with
  | none => 0
  | some v₁ =>
    match hexVal? c₂ with
    | none => v₁
    | some v₂ => 16 * v₁ + v₂

/-- Parse consecutive character pairs of a hex string into bytes, as the
codec's `for` loops over `substr(i * 2, 2)` do. -/
def parseHexPairs : List Char → List Nat
  | c₁ :: c₂ :: rest => jsParseHex2 c₁ c₂ :: parseHexPairs rest
  | _ => []

/-- The rendering `b.toString(16).padStart(2, '0')` for a `Uint8Array` element
(`b < 256`): exactly two lowercase hex digits. -/
def toHexPair (b : Nat) : List Char :=
  [Nat.digitChar (b / 16), Nat.digitChar (b % 16)]

/-- The rendering `Array.from(bytes).map(b => b.toString(16).padStart(2, '0')).join('')`. -/
def printHexPairs (l : List Nat) : List Char :=
  l.flatMap toHexPair

/-- Reassemble a UUID string from its 32 hex characters:
`substr(0,8)-substr(8,4)-substr(12,4)-substr(16,4)-substr(20,12)`. -/
def uuidInsertHyphens (l : List Char) : List Char :=
  l.take 8 ++ '-' :: ((l.drop 8).take 4) ++ '-' :: ((l.drop 12).take 4)
    ++ '-' :: ((l.drop 16).take 4) ++ '-' :: ((l.drop 20).take 12)

/-! ## Codec (`src/utils/messageEnvelope.ts`) -/

/-- The distinct `EnvelopeError` conditions thrown by the codec. -/
inductive EnvError where
  | invalidVersion
  | invalidTTL
  | missingMessageId
  | missingSenderId
  | missingRecipientId
  | invalidTimestamp
  | emptyNonce
  | emptyTag
  | emptyPayload
  | invalidMessageIdFormat
  | invalidSenderIdLength
  | invalidRecipientIdLength
  | serializationFailed
  | tooShort
  | unsupportedVersion
  | invalidNonceLength
  | malformedNonce
  | missingTagLength
  | invalidTagLength
  | malformedTag
  | missingPayloadLength
  | invalidPayloadLength
  | payloadLengthMismatch
deriving DecidableEq

/-- Function `validateEnvelope` from `messageEnvelope.ts`, check for check in
source order.  The `Number.isInteger`/`Number.isFinite` tests hold by
construction at integer granularity; `!envelope.messageId` is the
JavaScript falsiness test, i.e. the empty string. -/
def validateEnvelope (e : MessageEnvelope) : Except EnvError Unit :=
  if e.version ≠ MESSAGE_ENVELOPE_VERSION then .error .invalidVersion
  else if e.ttl < 0 ∨ e.ttl > 255 then .error .invalidTTL
  else if e.messageId = "" then .error .missingMessageId
  else if e.senderId = "" then .error .missingSenderId
  else if e.recipientId = "" then .error .missingRecipientId
  else if e.timestamp = 0 then .error .invalidTimestamp
  else if e.nonce.length = 0 then .error .emptyNonce
  else if e.tag.length = 0 then .error .emptyTag
  else if e.encryptedPayload.length = 0 then .error .emptyPayload
  else .ok ()

/-- The per-character test of the hyphen-stripping `messageId.replace`
regex call. -/
def notHyphen (c : Char) : Bool := c ≠ '-'

/-- Function `serializeEnvelope` from `messageEnvelope.ts`.  The output is the
concatenation written through the fixed offsets of the `DataView`:
version, 16 messageId bytes, 8 senderId bytes, 8 recipientId bytes,
big-endian timestamp, ttl, and the three length-prefixed variable
fields.  `setBigUint64` raises a `RangeError` (surfaced as
`EnvelopeError('Serialization failed')`) for values outside `[0, 2^64)`;
`setUint16`/`setUint32` silently reduce the length prefixes. -/
def serializeEnvelope (e : MessageEnvelope) : Except EnvError (List Nat) :=
  match validateEnvelope e with
  | .error err => .error err
  | .ok _ =>
    let messageIdHex := e.messageId.toList.filter notHyphen
    if messageIdHex.length ≠ 32 then .error .invalidMessageIdFormat
    else if e.senderId.toList.length ≠ 16 then .error .invalidSenderIdLength
    else if e.recipientId.toList.length ≠ 16 then .error .invalidRecipientIdLength
    else if e.timestamp ≥ 2 ^ 64 then .error .serializationFailed
    else
      .ok ([e.version] ++ parseHexPairs messageIdHex
        ++ parseHexPairs e.senderId.toList ++ parseHexPairs e.recipientId.toList
        ++ toBytesBE 8 e.timestamp ++ [e.ttl.toNat]
        ++ toBytesBE 2 (e.nonce.length % 65536) ++ e.nonce
        ++ toBytesBE 2 (e.tag.length % 65536) ++ e.tag
        ++ toBytesBE 4 (e.encryptedPayload.length % 4294967296) ++ e.encryptedPayload)

/-- Function `deserializeEnvelope` from `messageEnvelope.ts`, with the source's
offsets: version at 0, messageId at 1, senderId at 17, recipientId at
25, timestamp at 33, ttl at 41, nonce length at 42, nonce at 44, then
the tag and payload blocks.  `Number(view.getBigUint64(...))` is exact
for every value a serialized envelope can carry. -/
def deserializeEnvelope (data : List Nat) : Except EnvError MessageEnvelope :=
  if data.length < 50 then .error .tooShort
  else
    let version := data.getD 0 0
    if version ≠ MESSAGE_ENVELOPE_VERSION then .error .unsupportedVersion
    else
      let messageId := String.mk (uuidInsertHyphens (printHexPairs ((data.drop 1).take 16)))
      let senderId := String.mk (printHexPairs ((data.drop 17).take 8))
      let recipientId := String.mk (printHexPairs ((data.drop 25).take 8))
      let timestamp := readBE ((data.drop 33).take 8)
      let ttl : Int := data.getD 41 0
      let nonceLength := readBE ((data.drop 42).take 2)
      if nonceLength > 1024 then .error .invalidNonceLength
      else if 44 + nonceLength > data.length then .error .malformedNonce
      else
        let nonce := (data.drop 44).take nonceLength
        if 44 + nonceLength + 2 > data.length then .error .missingTagLength
        else
          let tagLength := readBE ((data.drop (44 + nonceLength)).take 2)
          if tagLength > 1024 then .error .invalidTagLength
          else if 46 + nonceLength + tagLength > data.length then .error .malformedTag
          else
            let tag := (data.drop (46 + nonceLength)).take tagLength
            if 46 + nonceLength + tagLength + 4 > data.length then .error .missingPayloadLength
            else
              let payloadLength := readBE ((data.drop (46 + nonceLength + tagLength)).take 4)
              if payloadLength > 10 * 1024 * 1024 then .error .invalidPayloadLength
              else if 50 + nonceLength + tagLength + payloadLength ≠ data.length then
                .error .payloadLengthMismatch
              else
                let encryptedPayload := (data.drop (50 + nonceLength + tagLength)).take payloadLength
                let e : MessageEnvelope :=
                  { version := version, messageId := messageId, senderId := senderId,
                    recipientId := recipientId, timestamp := timestamp, ttl := ttl,
                    encryptedPayload := encryptedPayload, nonce := nonce, tag := tag }
                match validateEnvelope e with
                | .error err => .error err
                | .ok _ => .ok e

/-! ## Codec lemmas -/

theorem digitChar_eq_star (n : Nat) (h : 16 ≤ n) : Nat.digitChar n = '*' := by
  unfold Nat.digitChar
  rw [if_neg (by omega : ¬ n = 0), if_neg (by omega : ¬ n = 1),
    if_neg (by omega : ¬ n = 2), if_neg (by omega : ¬ n = 3),
    if_neg (by omega : ¬ n = 4), if_neg (by omega : ¬ n = 5),
    if_neg (by omega : ¬ n = 6), if_neg (by omega : ¬ n = 7),
    if_neg (by omega : ¬ n = 8), if_neg (by omega : ¬ n = 9),
    if_neg (by omega : ¬ n = 10), if_neg (by omega : ¬ n = 11),
    if_neg (by omega : ¬ n = 12), if_neg (by omega : ¬ n = 13),
    if_neg (by omega : ¬ n = 14), if_neg (by omega : ¬ n = 15)]

theorem digitChar_ne_hyphen (n : Nat) : Nat.digitChar n ≠ '-' := by
  by_cases h : n < 16
  · interval_cases n <;> decide
  · rw [digitChar_eq_star n (by omega)]
    decide

theorem digitChar_mem_lowerHex (n : Nat) (h : n < 16) :
    Nat.digitChar n ∈ lowerHexDigits :=
  List.mem_map.mpr ⟨n, List.mem_range.mpr h, rfl⟩

theorem hexVal?_digitChar (v : Nat) (h : v < 16) : hexVal? (Nat.digitChar v) = some v := by
  interval_cases v <;> decide

theorem lowerHex_hexVal (c : Char) (h : c ∈ lowerHexDigits) :
    ∃ v, v < 16 ∧ hexVal? c = some v ∧ Nat.digitChar v = c := by
  rw [lowerHexDigits] at h
  obtain ⟨i, hi, rfl⟩ := List.mem_map.mp h
  have hi16 : i < 16 := List.mem_range.mp hi
  exact ⟨i, hi16, hexVal?_digitChar i hi16, rfl⟩

theorem jsParseHex2_lowerHex (c₁ c₂ : Char) (h₁ : c₁ ∈ lowerHexDigits)
    (h₂ : c₂ ∈ lowerHexDigits) :
    jsParseHex2 c₁ c₂ < 256 ∧ toHexPair (jsParseHex2 c₁ c₂) = [c₁, c₂] := by
  obtain ⟨v₁, hv₁, hval₁, hchar₁⟩ := lowerHex_hexVal c₁ h₁
  obtain ⟨v₂, hv₂, hval₂, hchar₂⟩ := lowerHex_hexVal c₂ h₂
  have hp : jsParseHex2 c₁ c₂ = 16 * v₁ + v₂ := by
    simp [jsParseHex2, hval₁, hval₂]
  constructor
  · omega
  · have hdiv : (16 * v₁ + v₂) / 16 = v₁ := by omega
    have hmod : (16 * v₁ + v₂) % 16 = v₂ := by omega
    simp [toHexPair, hp, hdiv, hmod, hchar₁, hchar₂]

theorem printHexPairs_parseHexPairs :
    ∀ l : List Char, (∀ c ∈ l, c ∈ lowerHexDigits) → l.length % 2 = 0 →
      printHexPairs (parseHexPairs l) = l
  | [], _, _ => rfl
  | [c], _, hlen => by simp at hlen
  | c₁ :: c₂ :: rest, hmem, hlen => by
    have h₁ : c₁ ∈ lowerHexDigits := hmem c₁ (by simp)
    have h₂ : c₂ ∈ lowerHexDigits := hmem c₂ (by simp)
    have hrest : ∀ c ∈ rest, c ∈ lowerHexDigits := fun c hc => hmem c (by simp [hc])
    have hrlen : rest.length % 2 = 0 := by
      simp only [List.length_cons] at hlen
      omega
    have ih := printHexPairs_parseHexPairs rest hrest hrlen
    have hpair := (jsParseHex2_lowerHex c₁ c₂ h₁ h₂).2
    simp only [parseHexPairs, printHexPairs, List.flatMap_cons] at *
    rw [hpair, ih]
    rfl

theorem parseHexPairs_length :
    ∀ l : List Char, (parseHexPairs l).length = l.length / 2
  | [] => rfl
  | [c] => by simp [parseHexPairs]
  | c₁ :: c₂ :: rest => by
    have ih := parseHexPairs_length rest
    simp only [parseHexPairs, List.length_cons, ih]
    omega

theorem parseHexPairs_lt :
    ∀ l : List Char, (∀ c ∈ l, c ∈ lowerHexDigits) → ∀ b ∈ parseHexPairs l, b < 256
  | [], _, b, hb => by simp [parseHexPairs] at hb
  | [c], _, b, hb => by simp [parseHexPairs] at hb
  | c₁ :: c₂ :: rest, hmem, b, hb => by
    simp only [parseHexPairs, List.mem_cons] at hb
    rcases hb with hb | hb
    · subst hb
      exact (jsParseHex2_lowerHex c₁ c₂ (hmem c₁ (by simp)) (hmem c₂ (by simp))).1
    · exact parseHexPairs_lt rest (fun c hc => hmem c (by simp [hc])) b hb

theorem printHexPairs_length (l : List Nat) : (printHexPairs l).length = 2 * l.length := by
  induction l with
  | nil => rfl
  | cons b t ih =>
    simp only [printHexPairs, List.flatMap_cons, List.length_append, toHexPair,
      List.length_cons, List.length_nil] at *
    omega

theorem printHexPairs_mem (l : List Nat) (h : ∀ b ∈ l, b < 256) :
    ∀ c ∈ printHexPairs l, c ∈ lowerHexDigits := by
  intro c hc
  simp only [printHexPairs, List.mem_flatMap] at hc
  obtain ⟨b, hb, hcb⟩ := hc
  have hblt := h b hb
  simp only [toHexPair, List.mem_cons, List.not_mem_nil, or_false] at hcb
  rcases hcb with hcb | hcb
  · subst hcb; exact digitChar_mem_lowerHex _ (by omega)
  · subst hcb; exact digitChar_mem_lowerHex _ (by omega)

theorem printHexPairs_ne_hyphen (l : List Nat) : ∀ c ∈ printHexPairs l, c ≠ '-' := by
  intro c hc
  simp only [printHexPairs, List.mem_flatMap] at hc
  obtain ⟨b, _, hcb⟩ := hc
  simp only [toHexPair, List.mem_cons, List.not_mem_nil, or_false] at hcb
  rcases hcb with hcb | hcb <;> (subst hcb; exact digitChar_ne_hyphen _)

theorem length_toBytesBE (k n : Nat) : (toBytesBE k n).length = k := by
  induction k generalizing n with
  | zero => rfl
  | succ k ih => simp [toBytesBE, ih]

theorem toBytesBE_lt (k n : Nat) : ∀ b ∈ toBytesBE k n, b < 256 := by
  induction k generalizing n with
  | zero => simp [toBytesBE]
  | succ k ih =>
    intro b hb
    simp only [toBytesBE, List.mem_append, List.mem_singleton] at hb
    rcases hb with hb | hb
    · exact ih _ b hb
    · subst hb; exact Nat.mod_lt _ (by omega)

theorem readBE_append_singleton (l : List Nat) (b : Nat) :
    readBE (l ++ [b]) = readBE l * 256 + b := by
  simp [readBE, List.foldl_append]

theorem readBE_toBytesBE (k n : Nat) : readBE (toBytesBE k n) = n % 2 ^ (8 * k) := by
  induction k generalizing n with
  | zero => simp [toBytesBE, readBE, Nat.mod_one]
  | succ k ih =>
    rw [toBytesBE, readBE_append_singleton, ih]
    have h1 : n / 256 % 2 ^ (8 * k) = n % (256 * 2 ^ (8 * k)) / 256 :=
      Nat.div_mod_eq_mod_mul_div n 256 (2 ^ (8 * k))
    have h2 : n % 256 = n % (256 * 2 ^ (8 * k)) % 256 :=
      (Nat.mod_mod_of_dvd n ⟨2 ^ (8 * k), rfl⟩).symm
    have h3 : 2 ^ (8 * (k + 1)) = 256 * 2 ^ (8 * k) := by ring
    rw [h1, h2, h3]
    omega

theorem readBE_lt (l : List Nat) (h : ∀ b ∈ l, b < 256) :
    readBE l < 2 ^ (8 * l.length) := by
  induction l using List.reverseRecOn with
  | nil => simp [readBE]
  | append_singleton t b ih =>
    rw [readBE_append_singleton]
    have hb : b < 256 := h b (by simp)
    have ht := ih (fun x hx => h x (by simp [hx]))
    have h3 : 2 ^ (8 * (t ++ [b]).length) = 2 ^ (8 * t.length) * 256 := by
      simp only [List.length_append, List.length_singleton]
      ring
    rw [h3]
    omega

/-! ## Envelope validity

`ValidEnvelope` is the amended structural-invariant hypothesis for the
round-trip property: everything `validateEnvelope` checks, plus the
facts the wire format itself imposes (canonical lowercase hex ids,
64-bit timestamp, the deserializer's length caps, byte-valued array
elements). -/

/-- The messageId is in the canonical lowercase hyphenated UUID form:
removing hyphens leaves 32 lowercase hex digits, and re-inserting the
hyphens at positions 8-4-4-4-12 reproduces the string. -/
def isCanonicalUuid (s : String) : Prop :=
  (s.toList.filter notHyphen).length = 32 ∧
  (∀ c ∈ s.toList.filter notHyphen, c ∈ lowerHexDigits) ∧
  uuidInsertHyphens (s.toList.filter notHyphen) = s.toList

instance (s : String) : Decidable (isCanonicalUuid s) := by
  unfold isCanonicalUuid; infer_instance

/-- A peer id on the wire: exactly 16 lowercase hex characters. -/
def isLowerHexId16 (s : String) : Prop :=
  s.toList.length = 16 ∧ ∀ c ∈ s.toList, c ∈ lowerHexDigits

instance (s : String) : Decidable (isLowerHexId16 s) := by
  unfold isLowerHexId16; infer_instance

def ValidEnvelope (e : MessageEnvelope) : Prop :=
  e.version = 1 ∧ 0 ≤ e.ttl ∧ e.ttl ≤ 255 ∧
  0 < e.timestamp ∧ e.timestamp < 2 ^ 64 ∧
  isCanonicalUuid e.messageId ∧
  isLowerHexId16 e.senderId ∧ isLowerHexId16 e.recipientId ∧
  e.nonce ≠ [] ∧ e.nonce.length ≤ 1024 ∧ (∀ b ∈ e.nonce, b < 256) ∧
  e.tag ≠ [] ∧ e.tag.length ≤ 1024 ∧ (∀ b ∈ e.tag, b < 256) ∧
  e.encryptedPayload ≠ [] ∧ e.encryptedPayload.length ≤ 10 * 1024 * 1024 ∧
  (∀ b ∈ e.encryptedPayload, b < 256)

instance (e : MessageEnvelope) : Decidable (ValidEnvelope e) := by
  unfold ValidEnvelope; infer_instance

/-- The byte sequence `serializeEnvelope` produces on success. -/
def wireBytes (e : MessageEnvelope) : List Nat :=
  [e.version] ++ parseHexPairs (e.messageId.toList.filter notHyphen)
    ++ parseHexPairs e.senderId.toList ++ parseHexPairs e.recipientId.toList
    ++ toBytesBE 8 e.timestamp ++ [e.ttl.toNat]
    ++ toBytesBE 2 (e.nonce.length % 65536) ++ e.nonce
    ++ toBytesBE 2 (e.tag.length % 65536) ++ e.tag
    ++ toBytesBE 4 (e.encryptedPayload.length % 4294967296) ++ e.encryptedPayload

theorem validateEnvelope_ok (e : MessageEnvelope) (h : ValidEnvelope e) :
    validateEnvelope e = .ok () := by
  obtain ⟨hv, httl0, httl255, hts0, -, hmid, hsid, hrid, hn, -, -, ht, -, -, hp, -, -⟩ := h
  have hmidne : e.messageId ≠ "" := by
    intro hcon
    rw [hcon] at hmid
    simp [isCanonicalUuid] at hmid
  have hsidne : e.senderId ≠ "" := by
    intro hcon
    rw [hcon] at hsid
    simp [isLowerHexId16] at hsid
  have hridne : e.recipientId ≠ "" := by
    intro hcon
    rw [hcon] at hrid
    simp [isLowerHexId16] at hrid
  unfold validateEnvelope
  rw [if_neg (by simp [MESSAGE_ENVELOPE_VERSION, hv]),
    if_neg (by push_neg; omega),
    if_neg hmidne, if_neg hsidne, if_neg hridne,
    if_neg (by omega),
    if_neg (by simpa using hn), if_neg (by simpa using ht), if_neg (by simpa using hp)]

theorem serializeEnvelope_ok (e : MessageEnvelope) (h : ValidEnvelope e) :
    serializeEnvelope e = .ok (wireBytes e) := by
  have hval := validateEnvelope_ok e h
  obtain ⟨hv, httl0, httl255, hts0, hts64, hmid, hsid, hrid, -⟩ := h
  unfold serializeEnvelope
  rw [hval]
  rw [if_neg (by simpa using hmid.1), if_neg (by simpa using hsid.1),
    if_neg (by simpa using hrid.1), if_neg (by omega)]
  rfl

theorem getD_of_drop_eq {α} {l : List α} {n : Nat} {a : α} {t : List α}
    (h : l.drop n = a :: t) (d : α) : l.getD n d = a := by
  have hget : l[n]? = some a := by
    rw [← List.head?_drop, h]
    rfl
  simp [List.getD, hget]

theorem mk_toList (s : String) : String.mk s.toList = s := by cases s; rfl

theorem deserialize_wireBytes (e : MessageEnvelope) (h : ValidEnvelope e) :
    deserializeEnvelope (wireBytes e) = .ok e := by
  have hval := validateEnvelope_ok e h
  obtain ⟨hv, httl0, httl255, hts0, hts64, hmid, hsid, hrid,
    hn, hn1024, hnb, ht, ht1024, htb, hp, hpM, hpb⟩ := h
  have hnpos : 0 < e.nonce.length := List.length_pos.mpr hn
  have htpos : 0 < e.tag.length := List.length_pos.mpr ht
  have hppos : 0 < e.encryptedPayload.length := List.length_pos.mpr hp
  -- Segment abbreviations for the serialized image.
  set mid := e.messageId.toList.filter notHyphen with hmid_def
  set A := parseHexPairs mid with hA_def
  set B := parseHexPairs e.senderId.toList with hB_def
  set C := parseHexPairs e.recipientId.toList with hC_def
  set T := toBytesBE 8 e.timestamp with hT_def
  set N2 := toBytesBE 2 (e.nonce.length % 65536) with hN2_def
  set G2 := toBytesBE 2 (e.tag.length % 65536) with hG2_def
  set P4 := toBytesBE 4 (e.encryptedPayload.length % 4294967296) with hP4_def
  have hAlen : A.length = 16 := by
    rw [hA_def, parseHexPairs_length, hmid.1]
  have hBlen : B.length = 8 := by
    rw [hB_def, parseHexPairs_length, hsid.1]
  have hClen : C.length = 8 := by
    rw [hC_def, parseHexPairs_length, hrid.1]
  have hTlen : T.length = 8 := length_toBytesBE 8 _
  have hN2len : N2.length = 2 := length_toBytesBE 2 _
  have hG2len : G2.length = 2 := length_toBytesBE 2 _
  have hP4len : P4.length = 4 := length_toBytesBE 4 _
  -- The wire image in right-nested form.
  have hw : wireBytes e = e.version :: (A ++ (B ++ (C ++ (T ++ (e.ttl.toNat ::
      (N2 ++ (e.nonce ++ (G2 ++ (e.tag ++ (P4 ++ e.encryptedPayload)))))))))) := by
    simp only [wireBytes, List.append_assoc, List.singleton_append]
    rfl
  have hlen : (wireBytes e).length
      = 50 + e.nonce.length + e.tag.length + e.encryptedPayload.length := by
    simp [hw, hAlen, hBlen, hClen, hTlen, hN2len, hG2len, hP4len]
    omega
  -- Slices at each offset of the deserializer.
  have hd1 : (wireBytes e).drop 1 = A ++ (B ++ (C ++ (T ++ (e.ttl.toNat ::
      (N2 ++ (e.nonce ++ (G2 ++ (e.tag ++ (P4 ++ e.encryptedPayload))))))))) := by
    rw [hw]; rfl
  have hd17 : (wireBytes e).drop 17 = B ++ (C ++ (T ++ (e.ttl.toNat ::
      (N2 ++ (e.nonce ++ (G2 ++ (e.tag ++ (P4 ++ e.encryptedPayload)))))))) := by
    have h' : (wireBytes e).drop 17 = ((wireBytes e).drop 1).drop 16 := by
      rw [List.drop_drop]
    rw [h', hd1, List.drop_left' hAlen]
  have hd25 : (wireBytes e).drop 25 = C ++ (T ++ (e.ttl.toNat ::
      (N2 ++ (e.nonce ++ (G2 ++ (e.tag ++ (P4 ++ e.encryptedPayload))))))) := by
    have h' : (wireBytes e).drop 25 = ((wireBytes e).drop 17).drop 8 := by
      rw [List.drop_drop]
    rw [h', hd17, List.drop_left' hBlen]
  have hd33 : (wireBytes e).drop 33 = T ++ (e.ttl.toNat ::
      (N2 ++ (e.nonce ++ (G2 ++ (e.tag ++ (P4 ++ e.encryptedPayload)))))) := by
    have h' : (wireBytes e).drop 33 = ((wireBytes e).drop 25).drop 8 := by
      rw [List.drop_drop]
    rw [h', hd25, List.drop_left' hClen]
  have hd41 : (wireBytes e).drop 41 = e.ttl.toNat ::
      (N2 ++ (e.nonce ++ (G2 ++ (e.tag ++ (P4 ++ e.encryptedPayload))))) := by
    have h' : (wireBytes e).drop 41 = ((wireBytes e).drop 33).drop 8 := by
      rw [List.drop_drop]
    rw [h', hd33, List.drop_left' hTlen]
  have hd42 : (wireBytes e).drop 42
      = N2 ++ (e.nonce ++ (G2 ++ (e.tag ++ (P4 ++ e.encryptedPayload)))) := by
    have h' : (wireBytes e).drop 42 = ((wireBytes e).drop 41).drop 1 := by
      rw [List.drop_drop]
    rw [h', hd41]
    rfl
  have hd44 : (wireBytes e).drop 44
      = e.nonce ++ (G2 ++ (e.tag ++ (P4 ++ e.encryptedPayload))) := by
    have h' : (wireBytes e).drop 44 = ((wireBytes e).drop 42).drop 2 := by
      rw [List.drop_drop]
    rw [h', hd42, List.drop_left' hN2len]
  have hd44n : (wireBytes e).drop (44 + e.nonce.length)
      = G2 ++ (e.tag ++ (P4 ++ e.encryptedPayload)) := by
    have h' : (wireBytes e).drop (44 + e.nonce.length)
        = ((wireBytes e).drop 44).drop e.nonce.length := by
      rw [List.drop_drop]
    rw [h', hd44, List.drop_left' rfl]
  have hd46n : (wireBytes e).drop (46 + e.nonce.length)
      = e.tag ++ (P4 ++ e.encryptedPayload) := by
    have h' : (wireBytes e).drop (46 + e.nonce.length)
        = ((wireBytes e).drop (44 + e.nonce.length)).drop 2 := by
      rw [show 46 + e.nonce.length = 44 + e.nonce.length + 2 from by omega,
        List.drop_drop]
    rw [h', hd44n, List.drop_left' hG2len]
  have hd46nt : (wireBytes e).drop (46 + e.nonce.length + e.tag.length)
      = P4 ++ e.encryptedPayload := by
    have h' : (wireBytes e).drop (46 + e.nonce.length + e.tag.length)
        = ((wireBytes e).drop (46 + e.nonce.length)).drop e.tag.length := by
      rw [List.drop_drop]
    rw [h', hd46n, List.drop_left' rfl]
  have hd50nt : (wireBytes e).drop (50 + e.nonce.length + e.tag.length)
      = e.encryptedPayload := by
    have h' : (wireBytes e).drop (50 + e.nonce.length + e.tag.length)
        = ((wireBytes e).drop (46 + e.nonce.length + e.tag.length)).drop 4 := by
      rw [show 50 + e.nonce.length + e.tag.length
          = 46 + e.nonce.length + e.tag.length + 4 from by omega,
        List.drop_drop]
    rw [h', hd46nt, List.drop_left' hP4len]
  -- Field values as the deserializer reads them.
  have hver : (wireBytes e).getD 0 0 = e.version := by
    rw [hw]; rfl
  have hmsg : String.mk (uuidInsertHyphens (printHexPairs (((wireBytes e).drop 1).take 16)))
      = e.messageId := by
    rw [hd1, List.take_left' hAlen, hA_def,
      printHexPairs_parseHexPairs mid hmid.2.1 (by rw [hmid.1]),
      hmid_def, hmid.2.2, mk_toList]
  have hsnd : String.mk (printHexPairs (((wireBytes e).drop 17).take 8)) = e.senderId := by
    rw [hd17, List.take_left' hBlen, hB_def,
      printHexPairs_parseHexPairs _ hsid.2 (by rw [hsid.1]), mk_toList]
  have hrcp : String.mk (printHexPairs (((wireBytes e).drop 25).take 8)) = e.recipientId := by
    rw [hd25, List.take_left' hClen, hC_def,
      printHexPairs_parseHexPairs _ hrid.2 (by rw [hrid.1]), mk_toList]
  have hts : readBE (((wireBytes e).drop 33).take 8) = e.timestamp := by
    rw [hd33, List.take_left' hTlen, hT_def, readBE_toBytesBE]
    exact Nat.mod_eq_of_lt hts64
  have httl : (wireBytes e).getD 41 0 = e.ttl.toNat := getD_of_drop_eq hd41 0
  have hnl : readBE (((wireBytes e).drop 42).take 2) = e.nonce.length := by
    rw [hd42, List.take_left' hN2len, hN2_def, readBE_toBytesBE]
    rw [Nat.mod_eq_of_lt (by omega : e.nonce.length % 65536 < 2 ^ (8 * 2))]
    exact Nat.mod_eq_of_lt (by omega)
  have hnonce : ((wireBytes e).drop 44).take e.nonce.length = e.nonce := by
    rw [hd44, List.take_left' rfl]
  have htl : readBE (((wireBytes e).drop (44 + e.nonce.length)).take 2) = e.tag.length := by
    rw [hd44n, List.take_left' hG2len, hG2_def, readBE_toBytesBE]
    rw [Nat.mod_eq_of_lt (by omega : e.tag.length % 65536 < 2 ^ (8 * 2))]
    exact Nat.mod_eq_of_lt (by omega)
  have htag : ((wireBytes e).drop (46 + e.nonce.length)).take e.tag.length = e.tag := by
    rw [hd46n, List.take_left' rfl]
  have hpl : readBE (((wireBytes e).drop (46 + e.nonce.length + e.tag.length)).take 4)
      = e.encryptedPayload.length := by
    rw [hd46nt, List.take_left' hP4len, hP4_def, readBE_toBytesBE]
    rw [Nat.mod_eq_of_lt (by omega : e.encryptedPayload.length % 4294967296 < 2 ^ (8 * 4))]
    exact Nat.mod_eq_of_lt (by omega)
  have hpay : ((wireBytes e).drop (50 + e.nonce.length + e.tag.length)).take
      e.encryptedPayload.length = e.encryptedPayload := by
    rw [hd50nt, List.take_length]
  -- Evaluate the deserializer.
  simp only [deserializeEnvelope]
  rw [if_neg (by omega : ¬ (wireBytes e).length < 50)]
  rw [hver, hv, if_neg (by decide : ¬ (1 : Nat) ≠ MESSAGE_ENVELOPE_VERSION)]
  rw [hnl]
  rw [if_neg (by omega : ¬ e.nonce.length > 1024),
    if_neg (by omega : ¬ 44 + e.nonce.length > (wireBytes e).length)]
  rw [htl]
  rw [if_neg (by omega : ¬ 44 + e.nonce.length + 2 > (wireBytes e).length),
    if_neg (by omega : ¬ e.tag.length > 1024),
    if_neg (by omega : ¬ 46 + e.nonce.length + e.tag.length > (wireBytes e).length)]
  rw [hpl]
  rw [if_neg (by omega : ¬ 46 + e.nonce.length + e.tag.length + 4 > (wireBytes e).length),
    if_neg (by omega : ¬ e.encryptedPayload.length > 10 * 1024 * 1024),
    if_neg (by omega : ¬ 50 + e.nonce.length + e.tag.length + e.encryptedPayload.length
      ≠ (wireBytes e).length)]
  rw [hmsg, hsnd, hrcp, hts, httl, hnonce, htag, hpay]
  have hrec : MessageEnvelope.mk 1 e.messageId e.senderId e.recipientId e.timestamp
      (e.ttl.toNat : Int) e.encryptedPayload e.nonce e.tag = e := by
    have h1 : ((e.ttl.toNat : Int)) = e.ttl := Int.toNat_of_nonneg httl0
    cases e
    simp_all
  rw [hrec, hval]

/-! ## Claim C1: serialize/deserialize round-trip -/

/-- A hexadecimal digit of either case (both are accepted by the
serializer's `parseInt(…, 16)` calls). -/
def isHexDigit (c : Char) : Prop := c ∈ lowerHexDigits ∨ c ∈ upperHexDigits

instance (c : Char) : Decidable (isHexDigit c) := by
  unfold isHexDigit; infer_instance

/-- The hypothesis of claim C1 exactly as the claim states it: version 1,
integer TTL in 0..255, positive finite timestamp, non-empty
messageId/senderId/recipientId with messageId a 32-hex-digit UUID and
senderId/recipientId 16 hex characters, non-empty nonce, tag and
payload.  (Stated from the claim's words, to be compared with the
source-derived behaviour.) -/
def C1ClaimedValidity (e : MessageEnvelope) : Prop :=
  e.version = 1 ∧ 0 ≤ e.ttl ∧ e.ttl ≤ 255 ∧ 0 < e.timestamp ∧
  e.messageId ≠ "" ∧ e.senderId ≠ "" ∧ e.recipientId ≠ "" ∧
  (e.messageId.toList.filter notHyphen).length = 32 ∧
  (∀ c ∈ e.messageId.toList.filter notHyphen, isHexDigit c) ∧
  e.senderId.toList.length = 16 ∧ (∀ c ∈ e.senderId.toList, isHexDigit c) ∧
  e.recipientId.toList.length = 16 ∧ (∀ c ∈ e.recipientId.toList, isHexDigit c) ∧
  e.nonce ≠ [] ∧ e.tag ≠ [] ∧ e.encryptedPayload ≠ []

instance (e : MessageEnvelope) : Decidable (C1ClaimedValidity e) := by
  unfold C1ClaimedValidity; infer_instance

/-- A validation-passing envelope in the claim's sense but with uppercase
hex digits in `senderId`: the codec rewrites them to lowercase on the
way back. -/
def c1CounterEnvelope : MessageEnvelope :=
  { version := 1, messageId := "00112233-4455-6677-8899-aabbccddeeff",
    senderId := "0123456789ABCDEF", recipientId := "fedcba9876543210",
    timestamp := 1700000000000, ttl := 10,
    encryptedPayload := [1, 2, 3], nonce := [4, 5], tag := [6, 7, 8] }

set_option maxHeartbeats 2000000 in
/-- Claim C1, counterexample.  `c1CounterEnvelope` satisfies everything the
claim demands of a validated envelope (its senderId is 16 hex
characters), yet deserializing its serialization does not return it:
the wire format stores ids as bytes, and re-rendering produces
lowercase hex, so `senderId` comes back as `"0123456789abcdef"`. -/
theorem c1_roundtrip_counterexample :
    C1ClaimedValidity c1CounterEnvelope ∧
    (serializeEnvelope c1CounterEnvelope).bind deserializeEnvelope
      ≠ .ok c1CounterEnvelope := by
  constructor
  · decide
  · decide

theorem except_bind_ok {ε α β : Type} (x : α) (f : α → Except ε β) :
    (Except.ok (ε := ε) x).bind f = f x := rfl

/-- Claim C1 (amended).  For every envelope that passes validation and is
in canonical wire form — messageId a lowercase canonically-hyphenated
UUID, senderId/recipientId 16 lowercase hex characters, timestamp below
`2^64`, nonce/tag at most 1024 bytes, payload at most 10 MiB, and the
byte arrays byte-valued — deserializing the result of serializing the
envelope yields the envelope back. -/
theorem c1_serialize_deserialize_roundtrip (e : MessageEnvelope) (h : ValidEnvelope e) :
    (serializeEnvelope e).bind deserializeEnvelope = .ok e := by
  rw [serializeEnvelope_ok e h, except_bind_ok]
  exact deserialize_wireBytes e h

/-- The canonical-form envelope used to witness the round-trip theorem. -/
def c1WitnessEnvelope : MessageEnvelope :=
  { version := 1, messageId := "00112233-4455-6677-8899-aabbccddeeff",
    senderId := "0123456789abcdef", recipientId := "fedcba9876543210",
    timestamp := 1700000000000, ttl := 10,
    encryptedPayload := [1, 2, 3], nonce := [4, 5], tag := [6, 7, 8] }

set_option maxHeartbeats 2000000 in
/-- Claim C1, witness.  The round-trip theorem applied at a concrete
canonical envelope. -/
theorem c1_roundtrip_witness :
    ValidEnvelope c1WitnessEnvelope ∧
    (serializeEnvelope c1WitnessEnvelope).bind deserializeEnvelope
      = .ok c1WitnessEnvelope :=
  ⟨by decide, c1_serialize_deserialize_roundtrip c1WitnessEnvelope (by decide)⟩

/-! ## DuplicateDetector (`src/utils/duplicateDetection.ts`)

The cache is a JavaScript `Map<string, number>` from message id to the
timestamp at which the id was first (or most recently) marked.  A JS
`Map` is insertion-ordered: `set` of an existing key updates in place,
`set` of a new key appends.  Embedded as an association list. -/

abbrev DupCache := List (String × Nat)

/-- JavaScript `Map.prototype.set`. -/
def mapSet (m : DupCache) (k : String) (v : Nat) : DupCache :=
  if m.any (fun p => p.1 = k) then
    m.map (fun p => if p.1 = k then (k, v) else p)
  else m ++ [(k, v)]

/-- Method `DuplicateDetector.isDuplicate`: a pure `Map.has` lookup. -/
def isDuplicate (m : DupCache) (messageId : String) : Bool :=
  m.any (fun p => p.1 = messageId)

/-- Method `DuplicateDetector.pruneCache` at current time `now`: deletes every
entry whose `timestamp < now - CACHE_EXPIRATION_MS`.  (In JS the
threshold can be negative, in which case no entry is below it; `Nat`
truncation at 0 gives the same behaviour for the non-negative
timestamps `Date.now` produces.) -/
def pruneCache (m : DupCache) (now : Nat) : DupCache :=
  m.filter (fun p => ¬ (p.2 < now - CACHE_EXPIRATION_MS))

/-- Method `DuplicateDetector.markAsProcessed`: insert with the current
timestamp, then prune. -/
def markAsProcessed (m : DupCache) (messageId : String) (now : Nat) : DupCache :=
  pruneCache (mapSet m messageId now) now

/-- Method `DuplicateDetector.getCacheSize`. -/
def getCacheSize (m : DupCache) : Nat := m.length

/-! ## Claim C6: expiry sweep on every write -/

/-- Claim C6.  After every write to the duplicate cache (`markAsProcessed`
of any id at any current time), no entry whose recorded timestamp is
older than 300 s before the current time remains: marking triggers a
sweep removing every expired entry. -/
theorem c6_mark_sweeps_expired (m : DupCache) (id : String) (now : Nat) :
    ∀ p ∈ markAsProcessed m id now, ¬ (p.2 < now - CACHE_EXPIRATION_MS) := by
  intro p hp
  simp only [markAsProcessed, pruneCache, List.mem_filter, decide_not,
    Bool.not_eq_eq_eq_not, Bool.not_true, decide_eq_false_iff_not] at hp
  exact hp.2

/-- Claim C6, witness.  Marking `"b"` at `now = 400000` on a cache holding
`("a", 0)` leaves only unexpired entries; in particular the fresh entry
is present and unexpired. -/
theorem c6_mark_sweeps_expired_witness :
    ("b", 400000) ∈ markAsProcessed [("a", 0)] "b" 400000 ∧
    ¬ ((("b", 400000) : String × Nat).2 < 400000 - CACHE_EXPIRATION_MS) :=
  ⟨by decide, c6_mark_sweeps_expired [("a", 0)] "b" 400000 ("b", 400000) (by decide)⟩

/-! ## Claim C5: the 1000-entry capacity bound -/

/-- The `i`-th distinct message id used to overfill the cache. -/
def c5IdOf (i : Nat) : String := String.mk (List.replicate i 'a')

/-- A list of 1001 pairwise-distinct message ids. -/
def c5Ids : List String := (List.range 1001).map c5IdOf

/-- The cache after marking all 1001 ids at the same instant (time 0,
so nothing expires). -/
def c5Overfilled : DupCache :=
  c5Ids.foldl (fun m id => markAsProcessed m id 0) []

theorem prune_at_zero (m : DupCache) : pruneCache m 0 = m := by
  simp [pruneCache, CACHE_EXPIRATION_MS]

theorem mark_fresh_at_zero (m : DupCache) (id : String)
    (h : isDuplicate m id = false) :
    markAsProcessed m id 0 = m ++ [(id, 0)] := by
  unfold markAsProcessed mapSet
  rw [prune_at_zero]
  simp only [isDuplicate] at h
  rw [if_neg (by simp [h])]

theorem c5_fold_fresh :
    ∀ (k n : Nat) (m : DupCache), (∀ p ∈ m, p.1.toList.length < n) →
      getCacheSize (((List.range' n k).map c5IdOf).foldl
        (fun m id => markAsProcessed m id 0) m) = m.length + k
  | 0, n, m, _ => by simp [getCacheSize]
  | k + 1, n, m, hm => by
    have hfresh : isDuplicate m (c5IdOf n) = false := by
      simp only [isDuplicate, List.any_eq_false, decide_eq_true_eq]
      intro p hp
      intro hcon
      have hlen := hm p hp
      rw [hcon] at hlen
      simp [c5IdOf] at hlen
    have hstep := mark_fresh_at_zero m (c5IdOf n) hfresh
    have hm' : ∀ p ∈ m ++ [(c5IdOf n, 0)], p.1.toList.length < n + 1 := by
      intro p hp
      rcases List.mem_append.mp hp with hp | hp
      · exact Nat.lt_succ_of_lt (hm p hp)
      · simp only [List.mem_singleton] at hp
        subst hp
        simp [c5IdOf]
    have ih := c5_fold_fresh k (n + 1) (m ++ [(c5IdOf n, 0)]) hm'
    rw [List.range'_succ, List.map_cons, List.foldl_cons, hstep, ih]
    simp only [List.length_append, List.length_singleton]
    omega

/-- Claim C5, violation of the capacity bound.  Marking 1001 distinct ids
within the expiry window leaves 1001 entries in the cache: the
documented `MAX_CACHE_ENTRIES = 1000` cap is never enforced by
`markAsProcessed`, which prunes by age only. -/
theorem c5_cache_exceeds_capacity :
    getCacheSize c5Overfilled = 1001 ∧ MAX_CACHE_ENTRIES < getCacheSize c5Overfilled := by
  have h : getCacheSize c5Overfilled = 1001 := by
    have := c5_fold_fresh 1001 0 [] (by simp)
    simpa [c5Overfilled, c5Ids, List.range_eq_range'] using this
  exact ⟨h, by rw [h]; decide⟩

/-! ## MessageService (`src/services/MessageService.ts`)

The service's effects on its collaborators are recorded as an ordered
event list: storage writes, callback invocations, BLE transmissions and
retry-queue insertions.  External collaborators are oracles:

* `CryptoModel` packages `CryptoService` (libsodium key material,
  AES-encryption/decryption and the SHA-512 fingerprint);
* `storeOk m` tells whether `StorageService.storeMessage m` resolves or
  rejects;
* `connected` is `BLEService.getConnectedDevices()`;
* `sendOk p` tells whether `BLEService.sendData(p, …)` resolves. -/

/-- A generic JavaScript `Map.prototype.set` on string-keyed maps. -/
def jsMapSet {α : Type} (m : List (String × α)) (k : String) (v : α) :
    List (String × α) :=
  if m.any (fun p => p.1 = k) then
    m.map (fun p => if p.1 = k then (k, v) else p)
  else m ++ [(k, v)]

/-- Observable side effects of the engine, in program order. -/
inductive Event where
  | store (m : Message)
  | callbackReceived (m : Message)
  | callbackStatus (messageId : String) (delivered : Bool)
  | transmit (data : List Nat) (targets : List String)
  | queueRetry (messageId : String)
deriving DecidableEq

/-- The `CryptoService` interface as the message service consumes it. -/
structure CryptoModel where
  getPublicKey : List Nat
  generateTrustFingerprint : List Nat → String
  encryptMessage : String → List Nat → EncryptedMessage
  decryptMessage : EncryptedMessage → List Nat → Option String

/-- Method `MessageService.deriveSenderId`: first 16 characters of the
fingerprint of the public key. -/
def deriveSenderId (cr : CryptoModel) (publicKey : List Nat) : String :=
  String.mk ((cr.generateTrustFingerprint publicKey).toList.take 16)

/-- JavaScript `text.length`: the number of UTF-16 code units. -/
def utf16Length (s : String) : Nat :=
  s.toList.foldl (fun n c => n + if c.toNat < 65536 then 1 else 2) 0

/-- JavaScript `Map.prototype.get` on the peers map. -/
def peersGet (peers : List (String × Peer)) (k : String) : Option Peer :=
  (peers.find? (fun p => p.1 = k)).map Prod.snd

/-- The peer set a transmission goes to: every connected device, minus
the optional excluded peer. -/
def transmitTargets (connected : List String) (excludePeerId : Option String) :
    List String :=
  match excludePeerId with
  | some pid => connected.filter (fun id => id ≠ pid)
  | none => connected

/-- Method `MessageService.transmitToAllPeers`: sends to each target in
parallel and reports whether at least one send succeeded.  (With no
targets the source returns `false` before sending, which coincides with
`List.any` of the empty list; the event records the attempted target
set, possibly empty.) -/
def transmitToAllPeers (connected : List String) (sendOk : String → Bool)
    (data : List Nat) (excludePeerId : Option String) : Bool × List Event :=
  let devicesToSend := transmitTargets connected excludePeerId
  (devicesToSend.any sendOk, [.transmit data devicesToSend])

/-- Method `MessageService.relayMessage`: decrement the TTL, re-serialize,
forward to every connected peer except the inbound one.  A serializer
throw is caught and logged, transmitting nothing. -/
def relayMessage (connected : List String) (sendOk : String → Bool)
    (envelope : MessageEnvelope) (excludePeerId : String) : List Event :=
  let relayEnvelope : MessageEnvelope := { envelope with ttl := envelope.ttl - 1 }
  match serializeEnvelope relayEnvelope with
  | .error _ => []
  | .ok serialized =>
    (transmitToAllPeers connected sendOk serialized (some excludePeerId)).2

/-- The sender-peer scan of `handleIncomingMessage`: the first peer
whose bound public key hashes to the envelope's senderId. -/
def findSenderPeer (cr : CryptoModel) (peers : List (String × Peer))
    (envSenderId : String) : Option Peer :=
  (peers.map Prod.snd).find? (fun p =>
    match p.publicKey with
    | some pk => deriveSenderId cr pk = envSenderId
    | none => false)

/-- Sender resolution: prefer the senderId match, fall back to the
transport-supplied BLE device id. -/
def resolveSenderPeer (cr : CryptoModel) (peers : List (String × Peer))
    (envSenderId bleSenderId : String) : Option Peer :=
  match findSenderPeer cr peers envSenderId with
  | some p => some p
  | none => peersGet peers bleSenderId

/-- Method `MessageService.handleIncomingMessage`.  Returns the updated
duplicate cache and the emitted events.  The enclosing `try`/`catch`
swallows every error, so a rejected `storeMessage` ends the handler
after the store attempt: neither the received-message callback nor the
relay runs. -/
def handleIncomingMessage (cr : CryptoModel) (storeOk : Message → Bool)
    (connected : List String) (sendOk : String → Bool)
    (cache : DupCache) (senderId : String) (data : List Nat)
    (peers : List (String × Peer)) (now : Nat) : DupCache × List Event :=
  match deserializeEnvelope data with
  | .error _ => (cache, [])
  | .ok envelope =>
    match validateEnvelope envelope with
    | .error _ => (cache, [])
    | .ok _ =>
      if isDuplicate cache envelope.messageId then (cache, [])
      else
        let cache' := markAsProcessed cache envelope.messageId now
        match resolveSenderPeer cr peers envelope.senderId senderId with
        | none =>
          (cache', if envelope.ttl > 0 then
            relayMessage connected sendOk envelope senderId else [])
        | some senderPeer =>
          match senderPeer.sharedSecret with
          | none =>
            (cache', if envelope.ttl > 0 then
              relayMessage connected sendOk envelope senderId else [])
          | some secret =>
            match cr.decryptMessage
                { ciphertext := envelope.encryptedPayload,
                  nonce := envelope.nonce, tag := envelope.tag } secret with
            | none =>
              (cache', if envelope.ttl > 0 then
                relayMessage connected sendOk envelope senderId else [])
            | some plaintext =>
              let message : Message :=
                { id := envelope.messageId, peerId := senderPeer.id,
                  text := plaintext, timestamp := envelope.timestamp,
                  sent := false, delivered := true, failed := false }
              if storeOk message then
                (cache', [.store message, .callbackReceived message]
                  ++ (if envelope.ttl > 0 then
                    relayMessage connected sendOk envelope senderId else []))
              else
                (cache', [.store message])

/-- Function `createEnvelope` from `messageEnvelope.ts`.  The
`!encrypted.ciphertext`-style guards never fire for typed `Uint8Array`
values (objects are truthy in JS, even when empty), so the modelled
checks start at `messageId`. -/
def createEnvelope (encrypted : EncryptedMessage)
    (messageId senderId recipientId : String)
    (timestamp : Nat) (ttl : Int) : Except EnvError MessageEnvelope :=
  if messageId = "" then .error .missingMessageId
  else if senderId.toList.length ≠ 16 then .error .invalidSenderIdLength
  else if recipientId.toList.length ≠ 16 then .error .invalidRecipientIdLength
  else if timestamp = 0 then .error .invalidTimestamp
  else if ttl < 0 ∨ ttl > 255 then .error .invalidTTL
  else
    .ok { version := MESSAGE_ENVELOPE_VERSION, messageId := messageId,
          senderId := senderId, recipientId := recipientId,
          timestamp := timestamp, ttl := ttl,
          encryptedPayload := encrypted.ciphertext,
          nonce := encrypted.nonce, tag := encrypted.tag }

/-- The error kinds `sendMessage` surfaces to its caller. -/
inductive SendError where
  | tooLong
  | emptyMessage
  | unknownPeer
  | noSharedSecret
  | envelope (err : EnvError)
  | storage
deriving DecidableEq

/-- Method `MessageService.sendMessage`.  `messageId` stands for the freshly
generated UUID and `timestamp` for `Date.now()`; both come from outside
the deterministic fragment.  A rejected `storeMessage` propagates to
the caller (the outer catch rethrows), so nothing is transmitted after
a storage failure. -/
def sendMessage (cr : CryptoModel) (storeOk : Message → Bool)
    (connected : List String) (sendOk : String → Bool)
    (recipientId : String) (text : String) (peers : List (String × Peer))
    (messageId : String) (timestamp : Nat) :
    Except SendError Message × List Event :=
  if utf16Length text > MAX_MESSAGE_LENGTH then (.error .tooLong, [])
  else if utf16Length text = 0 then (.error .emptyMessage, [])
  else
    match peersGet peers recipientId with
    | none => (.error .unknownPeer, [])
    | some recipient =>
      match recipient.sharedSecret with
      | none => (.error .noSharedSecret, [])
      | some secret =>
        let senderId := deriveSenderId cr cr.getPublicKey
        let recipientIdHash :=
          match recipient.publicKey with
          | some pk => deriveSenderId cr pk
          | none => String.mk (recipientId.toList.take 16)
        let encrypted := cr.encryptMessage text secret
        match createEnvelope encrypted messageId senderId recipientIdHash
            timestamp (INITIAL_MESSAGE_TTL : Int) with
        | .error err => (.error (.envelope err), [])
        | .ok envelope =>
          match serializeEnvelope envelope with
          | .error err => (.error (.envelope err), [])
          | .ok serialized =>
            let message : Message :=
              { id := messageId, peerId := recipientId, text := text,
                timestamp := timestamp, sent := true,
                delivered := false, failed := false }
            if storeOk message then
              let result := transmitToAllPeers connected sendOk serialized none
              if result.1 then
                (.ok { message with delivered := true },
                  .store message :: result.2 ++ [.callbackStatus messageId true])
              else
                (.ok message,
                  .store message :: result.2 ++ [.queueRetry messageId])
            else (.error .storage, [.store message])

/-! ### Retry queue -/

/-- A `QueuedMessage` entry of the in-memory retry queue. -/
structure QueuedMessage where
  messageId : String
  peerId : String
  envelope : MessageEnvelope
  serialized : List Nat
  attempts : Nat
  nextRetryTime : Nat
deriving DecidableEq

abbrev RetryQueue := List (String × QueuedMessage)

/-- Method `MessageService.queueMessageForRetry`. -/
def queueMessageForRetry (q : RetryQueue) (messageId peerId : String)
    (envelope : MessageEnvelope) (serialized : List Nat) (now : Nat) :
    RetryQueue :=
  jsMapSet q messageId
    { messageId := messageId, peerId := peerId, envelope := envelope,
      serialized := serialized, attempts := 0,
      nextRetryTime := now + RETRY_BASE_DELAY_MS }

/-- One entry of a `processRetryQueue` pass: `none` means the entry was
deleted from the queue. -/
def processRetryEntry (connected : List String) (sendOk : String → Bool)
    (now : Nat) (entry : String × QueuedMessage) :
    Option (String × QueuedMessage) × List Event :=
  if now ≥ entry.2.nextRetryTime then
    let attempts' := entry.2.attempts + 1
    let result := transmitToAllPeers connected sendOk entry.2.serialized none
    if result.1 then
      (none, result.2 ++ [.callbackStatus entry.1 true])
    else if attempts' ≥ MAX_SEND_RETRIES then
      (none, result.2 ++ [.callbackStatus entry.1 false])
    else
      (some (entry.1, { entry.2 with
                        attempts := attempts',
                        nextRetryTime :=
                          now + RETRY_BASE_DELAY_MS * 2 ^ attempts' }),
        result.2)
  else (some entry, [])

/-- Method `MessageService.processRetryQueue`: one pass of the 1-second tick
over the queue, in insertion order. -/
def processRetryQueue (connected : List String) (sendOk : String → Bool)
    (now : Nat) : RetryQueue → RetryQueue × List Event
  | [] => ([], [])
  | entry :: rest =>
    let head := processRetryEntry connected sendOk now entry
    let tail := processRetryQueue connected sendOk now rest
    match head.1 with
    | none => (tail.1, head.2 ++ tail.2)
    | some kept => (kept :: tail.1, head.2 ++ tail.2)

/-! ## Inversion lemmas for the codec -/

theorem validateEnvelope_ok_inv (e : MessageEnvelope)
    (h : validateEnvelope e = .ok ()) :
    e.version = 1 ∧ 0 ≤ e.ttl ∧ e.ttl ≤ 255 ∧ 0 < e.timestamp ∧
    e.nonce ≠ [] ∧ e.tag ≠ [] ∧ e.encryptedPayload ≠ [] := by
  unfold validateEnvelope at h
  split_ifs at h with h1 h2 h3 h4 h5 h6 h7 h8 h9
  refine ⟨?_, ?_, ?_, ?_, ?_, ?_, ?_⟩
  · simpa [MESSAGE_ENVELOPE_VERSION] using h1
  · push_neg at h2; omega
  · push_neg at h2; omega
  · omega
  · simpa using h7
  · simpa using h8
  · simpa using h9

theorem string_mk_toList (l : List Char) : (String.mk l).toList = l := rfl

/-- Stripping the hyphens from a rendered UUID recovers the 32 hex
characters. -/
theorem filter_uuidInsertHyphens (l : List Char) (hne : ∀ c ∈ l, c ≠ '-')
    (hlen : l.length = 32) :
    (uuidInsertHyphens l).filter notHyphen = l := by
  have hseg : ∀ s : List Char, s ⊆ l → s.filter notHyphen = s := by
    intro s hs
    apply List.filter_eq_self.mpr
    intro c hc
    simp [notHyphen, hne c (hs hc)]
  have hsub1 : l.take 8 ⊆ l := List.take_subset 8 l
  have hsub2 : (l.drop 8).take 4 ⊆ l :=
    (List.take_subset 4 (l.drop 8)).trans (List.drop_subset 8 l)
  have hsub3 : (l.drop 12).take 4 ⊆ l :=
    (List.take_subset 4 (l.drop 12)).trans (List.drop_subset 12 l)
  have hsub4 : (l.drop 16).take 4 ⊆ l :=
    (List.take_subset 4 (l.drop 16)).trans (List.drop_subset 16 l)
  have hsub5 : (l.drop 20).take 12 ⊆ l :=
    (List.take_subset 12 (l.drop 20)).trans (List.drop_subset 20 l)
  have hhy : notHyphen '-' = false := by decide
  rw [uuidInsertHyphens]
  simp only [List.filter_append, List.filter_cons, hhy, Bool.false_eq_true,
    if_false, hseg _ hsub1, hseg _ hsub2, hseg _ hsub3, hseg _ hsub4,
    hseg _ hsub5]
  have h20 : (l.drop 20).take 12 = l.drop 20 :=
    List.take_of_length_le (by simp [hlen])
  have h16 : (l.drop 16).take 4 ++ l.drop 20 = l.drop 16 := by
    simpa using List.drop_take_append_drop l 16 4
  have h12 : (l.drop 12).take 4 ++ l.drop 16 = l.drop 12 := by
    simpa using List.drop_take_append_drop l 12 4
  have h8 : (l.drop 8).take 4 ++ l.drop 12 = l.drop 8 := by
    simpa using List.drop_take_append_drop l 8 4
  have h0 : l.take 8 ++ l.drop 8 = l := List.take_append_drop 8 l
  simp only [List.append_assoc, h20, h16, h12, h8, h0]

set_option maxHeartbeats 4000000 in
/-- Every envelope the deserializer accepts from byte-valued input is in
canonical wire form. -/
theorem deserializeEnvelope_ok_valid (data : List Nat) (e : MessageEnvelope)
    (hbytes : ∀ b ∈ data, b < 256)
    (h : deserializeEnvelope data = .ok e) : ValidEnvelope e := by
  simp only [deserializeEnvelope] at h
  set nl := readBE ((data.drop 42).take 2) with hnl_def
  set tl := readBE ((data.drop (44 + nl)).take 2) with htl_def
  set pl := readBE ((data.drop (46 + nl + tl)).take 4) with hpl_def
  by_cases h50 : data.length < 50
  · rw [if_pos h50] at h; exact absurd h (by simp)
  rw [if_neg h50] at h
  by_cases hver : data.getD 0 0 ≠ MESSAGE_ENVELOPE_VERSION
  · rw [if_pos hver] at h; exact absurd h (by simp)
  rw [if_neg hver] at h
  by_cases hc3 : nl > 1024
  · rw [if_pos hc3] at h; exact absurd h (by simp)
  rw [if_neg hc3] at h
  by_cases hc4 : 44 + nl > data.length
  · rw [if_pos hc4] at h; exact absurd h (by simp)
  rw [if_neg hc4] at h
  by_cases hc5 : 44 + nl + 2 > data.length
  · rw [if_pos hc5] at h; exact absurd h (by simp)
  rw [if_neg hc5] at h
  by_cases hc6 : tl > 1024
  · rw [if_pos hc6] at h; exact absurd h (by simp)
  rw [if_neg hc6] at h
  by_cases hc7 : 46 + nl + tl > data.length
  · rw [if_pos hc7] at h; exact absurd h (by simp)
  rw [if_neg hc7] at h
  by_cases hc8 : 46 + nl + tl + 4 > data.length
  · rw [if_pos hc8] at h; exact absurd h (by simp)
  rw [if_neg hc8] at h
  by_cases hc9 : pl > 10 * 1024 * 1024
  · rw [if_pos hc9] at h; exact absurd h (by simp)
  rw [if_neg hc9] at h
  by_cases hc10 : 50 + nl + tl + pl ≠ data.length
  · rw [if_pos hc10] at h; exact absurd h (by simp)
  rw [if_neg hc10] at h
  split at h
  · exact absurd h (by simp)
  next u heq =>
    injection h with h
    subst h
    have hval := heq
    obtain ⟨hv, httl0, httl255, hts0, hn, ht, hp⟩ := validateEnvelope_ok_inv _ hval
    push_neg at h50
    -- slice lengths
    have l16 : ((data.drop 1).take 16).length = 16 := by
      simp [List.length_take, List.length_drop]
      omega
    have l8s : ((data.drop 17).take 8).length = 8 := by
      simp [List.length_take, List.length_drop]
      omega
    have l8r : ((data.drop 25).take 8).length = 8 := by
      simp [List.length_take, List.length_drop]
      omega
    have l8t : ((data.drop 33).take 8).length = 8 := by
      simp [List.length_take, List.length_drop]
      omega
    have hsub16 : (data.drop 1).take 16 ⊆ data :=
      (List.take_subset _ _).trans (List.drop_subset _ _)
    have hsub8s : (data.drop 17).take 8 ⊆ data :=
      (List.take_subset _ _).trans (List.drop_subset _ _)
    have hsub8r : (data.drop 25).take 8 ⊆ data :=
      (List.take_subset _ _).trans (List.drop_subset _ _)
    have hsub8t : (data.drop 33).take 8 ⊆ data :=
      (List.take_subset _ _).trans (List.drop_subset _ _)
    have hsubn : (data.drop 44).take (readBE ((data.drop 42).take 2)) ⊆ data :=
      (List.take_subset _ _).trans (List.drop_subset _ _)
    refine ⟨hv, httl0, httl255, hts0, ?_, ⟨?_, ?_, ?_⟩, ⟨?_, ?_⟩, ⟨?_, ?_⟩,
      hn, ?_, ?_, ht, ?_, ?_, hp, ?_, ?_⟩
    · -- timestamp < 2^64
      have := readBE_lt ((data.drop 33).take 8) (fun b hb => hbytes b (hsub8t hb))
      rw [l8t] at this
      exact this
    · -- messageId filter length
      rw [string_mk_toList,
        filter_uuidInsertHyphens _ (printHexPairs_ne_hyphen _)
          (by rw [printHexPairs_length, l16]),
        printHexPairs_length, l16]
    · -- messageId hex digits
      rw [string_mk_toList,
        filter_uuidInsertHyphens _ (printHexPairs_ne_hyphen _)
          (by rw [printHexPairs_length, l16])]
      exact printHexPairs_mem _ (fun b hb => hbytes b (hsub16 hb))
    · -- messageId canonical form
      rw [string_mk_toList,
        filter_uuidInsertHyphens _ (printHexPairs_ne_hyphen _)
          (by rw [printHexPairs_length, l16])]
    · -- senderId length
      rw [string_mk_toList, printHexPairs_length, l8s]
    · -- senderId hex digits
      rw [string_mk_toList]
      exact printHexPairs_mem _ (fun b hb => hbytes b (hsub8s hb))
    · -- recipientId length
      rw [string_mk_toList, printHexPairs_length, l8r]
    · -- recipientId hex digits
      rw [string_mk_toList]
      exact printHexPairs_mem _ (fun b hb => hbytes b (hsub8r hb))
    · -- nonce length cap
      simp only [List.length_take, List.length_drop]
      omega
    · -- nonce bytes
      exact fun b hb => hbytes b (hsubn hb)
    · -- tag length cap
      simp only [List.length_take, List.length_drop]
      omega
    · -- tag bytes
      exact fun b hb =>
        hbytes b (((List.take_subset _ _).trans (List.drop_subset _ _)) hb)
    · -- payload length cap
      simp only [List.length_take, List.length_drop]
      omega
    · -- payload bytes
      exact fun b hb =>
        hbytes b (((List.take_subset _ _).trans (List.drop_subset _ _)) hb)

/-! ## Helper lemmas about the engine -/

theorem ValidEnvelope_decrement (e : MessageEnvelope) (h : ValidEnvelope e)
    (httl : 0 < e.ttl) : ValidEnvelope { e with ttl := e.ttl - 1 } := by
  obtain ⟨hv, h1, h2, h3, h4, h5, h6, h7, h8, h9, h10, h11, h12, h13, h14, h15, h16⟩ := h
  exact ⟨hv, (by omega : (0 : Int) ≤ e.ttl - 1), (by omega : e.ttl - 1 ≤ 255),
    h3, h4, h5, h6, h7, h8, h9, h10, h11, h12, h13, h14, h15, h16⟩

/-- On a canonically-formed envelope with positive TTL the relay path
serializes the TTL-decremented envelope and forwards it to every
connected peer except the inbound one. -/
theorem relayMessage_eq (connected : List String) (sendOk : String → Bool)
    (e : MessageEnvelope) (inbound : String)
    (h : ValidEnvelope e) (httl : 0 < e.ttl) :
    relayMessage connected sendOk e inbound
      = [Event.transmit (wireBytes { e with ttl := e.ttl - 1 })
          (connected.filter (fun p => p ≠ inbound))] := by
  simp only [relayMessage, serializeEnvelope_ok _ (ValidEnvelope_decrement e h httl)]
  rfl

theorem isDuplicate_markAsProcessed (m : DupCache) (id : String) (now : Nat) :
    isDuplicate (markAsProcessed m id now) id = true := by
  have hfresh : ¬ (now < now - CACHE_EXPIRATION_MS) := by omega
  unfold markAsProcessed pruneCache mapSet isDuplicate
  by_cases hmem : m.any (fun p => p.1 = id) = true
  · rw [if_pos hmem]
    obtain ⟨p, hp, hpid⟩ := List.any_eq_true.mp hmem
    apply List.any_eq_true.mpr
    refine ⟨(id, now), List.mem_filter.mpr ⟨?_, by simpa using hfresh⟩, by simp⟩
    exact List.mem_map.mpr ⟨p, hp, by simp_all⟩
  · rw [if_neg hmem]
    apply List.any_eq_true.mpr
    refine ⟨(id, now), List.mem_filter.mpr ⟨?_, by simpa using hfresh⟩, by simp⟩
    simp

/-! ## Concrete receive-path fixture, shared by several witnesses and
counterexamples -/

/-- Crypto oracle: the fingerprint of any key starts with
`aabbccdd00112233`, decryption always succeeds with plaintext `"hi"`. -/
def rxCrypto : CryptoModel :=
  { getPublicKey := [1],
    generateTrustFingerprint := fun _ => "aabbccdd00112233ffffffffffffffff",
    encryptMessage := fun _ _ => { ciphertext := [9], nonce := [8], tag := [7] },
    decryptMessage := fun _ _ => some "hi" }

def rxPeer : Peer :=
  { id := "p1", publicKey := some [2], sharedSecret := some [3],
    name := "peer one", connected := true, verified := false,
    rssi := -40, lastSeen := 0 }

def rxPeers : List (String × Peer) := [("p1", rxPeer)]

/-- A canonical envelope whose senderId matches `rxPeer`'s derived id. -/
def rxEnvelope : MessageEnvelope :=
  { version := 1, messageId := "00112233-4455-6677-8899-aabbccddeeff",
    senderId := "aabbccdd00112233", recipientId := "fedcba9876543210",
    timestamp := 1700000000000, ttl := 5,
    encryptedPayload := [1, 2, 3], nonce := [4, 5], tag := [6, 7, 8] }

/-- A second envelope, distinct message id. -/
def rxEnvelopeB : MessageEnvelope :=
  { rxEnvelope with messageId := "ffeeddcc-bbaa-9988-7766-554433221100" }

def rxData : List Nat := (serializeEnvelope rxEnvelope).toOption.getD []

def rxDataB : List Nat := (serializeEnvelope rxEnvelopeB).toOption.getD []

/-- Number of received-message callback invocations for a given id. -/
def countReceivedFor (evs : List Event) (id : String) : Nat :=
  (evs.filter (fun ev =>
    match ev with
    | .callbackReceived m => m.id = id
    | _ => false)).length

def isTransmitEvent : Event → Bool
  | .transmit _ _ => true
  | _ => false

def isStoreEvent : Event → Bool
  | .store _ => true
  | _ => false

/-! ## Claim C2: the relay hop -/

/-- Claim C2.  For every valid envelope with `ttl > 0` handed to the relay
procedure with an inbound peer id: the transmitted bytes are the
serialization of an envelope equal to the input in every field except
`ttl`, which is one less; the target set is every currently connected
peer except the inbound peer; the inbound peer is never a target. -/
theorem c2_relay_hop (e : MessageEnvelope) (inbound : String)
    (connected : List String) (sendOk : String → Bool)
    (h : ValidEnvelope e) (httl : 0 < e.ttl) :
    ∃ d, serializeEnvelope { e with ttl := e.ttl - 1 } = .ok d ∧
      relayMessage connected sendOk e inbound
        = [Event.transmit d (connected.filter (fun p => p ≠ inbound))] ∧
      inbound ∉ connected.filter (fun p => p ≠ inbound) ∧
      (∀ p ∈ connected, p ≠ inbound →
        p ∈ connected.filter (fun p => p ≠ inbound)) := by
  refine ⟨wireBytes { e with ttl := e.ttl - 1 },
    serializeEnvelope_ok _ (ValidEnvelope_decrement e h httl),
    relayMessage_eq connected sendOk e inbound h httl, ?_, ?_⟩
  · simp [List.mem_filter]
  · intro p hp hne
    simp [List.mem_filter, hp, hne]

set_option maxHeartbeats 2000000 in
/-- Claim C2, witness.  The relay hop applied to the concrete fixture
envelope (`ttl = 5`) with connected peers `p1`, `p2` and inbound `p1`. -/
theorem c2_relay_hop_witness :
    ValidEnvelope rxEnvelope ∧ 0 < rxEnvelope.ttl ∧
    ∃ d, serializeEnvelope { rxEnvelope with ttl := rxEnvelope.ttl - 1 } = .ok d ∧
      relayMessage ["p1", "p2"] (fun _ => true) rxEnvelope "p1"
        = [Event.transmit d (["p1", "p2"].filter (fun p => p ≠ "p1"))] ∧
      "p1" ∉ ["p1", "p2"].filter (fun p => p ≠ "p1") ∧
      (∀ p ∈ ["p1", "p2"], p ≠ "p1" →
        p ∈ ["p1", "p2"].filter (fun p => p ≠ "p1")) :=
  ⟨by decide, by decide,
    c2_relay_hop rxEnvelope "p1" ["p1", "p2"] (fun _ => true) (by decide) (by decide)⟩

/-! ## Claim C3: duplicate suppression -/

/-- Claim C3 (amended).  While a message id is in the duplicate cache, any
envelope carrying it is discarded before decryption, local delivery and
relay: the handler returns with the cache unchanged and no events — no
store, no received-message callback, no transmission.  Processing a
non-duplicate envelope puts its id into the cache, so an immediately
following copy is discarded.  (Cache entries persist at least 300 s;
they can be evicted by a later write once expired, after which a
re-arriving copy is processed again.) -/
theorem c3_duplicate_discarded (cr : CryptoModel) (storeOk : Message → Bool)
    (connected : List String) (sendOk : String → Bool) (cache : DupCache)
    (senderId : String) (data : List Nat) (peers : List (String × Peer))
    (now : Nat) (e : MessageEnvelope)
    (hbytes : ∀ b ∈ data, b < 256)
    (hdes : deserializeEnvelope data = .ok e) :
    (isDuplicate cache e.messageId = true →
      handleIncomingMessage cr storeOk connected sendOk cache senderId data peers now
        = (cache, [])) ∧
    (isDuplicate cache e.messageId = false →
      isDuplicate
        (handleIncomingMessage cr storeOk connected sendOk cache senderId data peers now).1
        e.messageId = true) := by
  have hval := validateEnvelope_ok e (deserializeEnvelope_ok_valid data e hbytes hdes)
  constructor
  · intro hdup
    simp [handleIncomingMessage, hdes, hval, hdup]
  · intro hnodup
    simp only [handleIncomingMessage, hdes, hval, hnodup, Bool.false_eq_true,
      if_false]
    repeat' split
    all_goals simp [isDuplicate_markAsProcessed]

set_option maxHeartbeats 2000000 in
/-- Claim C3, witness.  With the fixture envelope already cached, the
handler is a no-op; on the empty cache, processing marks the id. -/
theorem c3_duplicate_discarded_witness :
    (∀ b ∈ rxData, b < 256) ∧ deserializeEnvelope rxData = .ok rxEnvelope ∧
    ((isDuplicate [(rxEnvelope.messageId, 0)] rxEnvelope.messageId = true →
      handleIncomingMessage rxCrypto (fun _ => true) ["p2"] (fun _ => true)
        [(rxEnvelope.messageId, 0)] "p1" rxData rxPeers 0
        = ([(rxEnvelope.messageId, 0)], [])) ∧
    (isDuplicate [(rxEnvelope.messageId, 0)] rxEnvelope.messageId = false →
      isDuplicate
        (handleIncomingMessage rxCrypto (fun _ => true) ["p2"] (fun _ => true)
          [(rxEnvelope.messageId, 0)] "p1" rxData rxPeers 0).1
        rxEnvelope.messageId = true)) :=
  ⟨by decide, by decide,
    c3_duplicate_discarded rxCrypto (fun _ => true) ["p2"] (fun _ => true)
      [(rxEnvelope.messageId, 0)] "p1" rxData rxPeers 0 rxEnvelope
      (by decide) (by decide)⟩

set_option maxHeartbeats 4000000 in
/-- Claim C3, counterexample to the claim as stated.  The received-message
callback can fire twice for the same message id on one node: the first
copy is processed at t = 0; an unrelated message at t = 300 001 ms
prunes the expired entry; a second copy of the first message at
t = 300 002 ms is then processed and delivered again — a later envelope
with an already-processed id that is neither discarded nor suppressed. -/
theorem c3_duplicate_redelivered_counterexample :
    countReceivedFor
      (handleIncomingMessage rxCrypto (fun _ => true) ["p2"] (fun _ => true)
        [] "p1" rxData rxPeers 0).2 rxEnvelope.messageId = 1 ∧
    countReceivedFor
      (handleIncomingMessage rxCrypto (fun _ => true) ["p2"] (fun _ => true)
        (handleIncomingMessage rxCrypto (fun _ => true) ["p2"] (fun _ => true)
          (handleIncomingMessage rxCrypto (fun _ => true) ["p2"] (fun _ => true)
            [] "p1" rxData rxPeers 0).1 "p1" rxDataB rxPeers 300001).1
        "p1" rxData rxPeers 300002).2 rxEnvelope.messageId = 1 := by
  constructor
  · decide
  · decide

/-! ## Claim C4: relay exactly when TTL is positive -/

/-- Under the receive-path preconditions (parsed, validated,
non-duplicate, storage succeeding), the emitted events are a
transmit-free prefix followed by the relay block, which runs exactly
when `ttl > 0`. -/
theorem handleIncoming_events_shape (cr : CryptoModel) (storeOk : Message → Bool)
    (connected : List String) (sendOk : String → Bool) (cache : DupCache)
    (senderId : String) (data : List Nat) (peers : List (String × Peer))
    (now : Nat) (e : MessageEnvelope)
    (hdes : deserializeEnvelope data = .ok e)
    (hval : validateEnvelope e = .ok ())
    (hnodup : isDuplicate cache e.messageId = false)
    (hstore : ∀ m, storeOk m = true) :
    ∃ pre,
      (handleIncomingMessage cr storeOk connected sendOk cache senderId data
        peers now).2
        = pre ++ (if e.ttl > 0 then relayMessage connected sendOk e senderId else []) ∧
      ∀ ev ∈ pre, isTransmitEvent ev = false := by
  simp only [handleIncomingMessage, hdes, hval, hnodup, Bool.false_eq_true,
    if_false]
  rcases hres : resolveSenderPeer cr peers e.senderId senderId with _ | sp
  · exact ⟨[], by simp, by simp⟩
  · rcases hsec : sp.sharedSecret with _ | secret
    · exact ⟨[], by simp [hsec], by simp⟩
    · rcases hdec : cr.decryptMessage
          { ciphertext := e.encryptedPayload, nonce := e.nonce, tag := e.tag }
          secret with _ | pt
      · exact ⟨[], by simp [hsec, hdec], by simp⟩
      · refine ⟨[Event.store
            { id := e.messageId, peerId := sp.id, text := pt,
              timestamp := e.timestamp, sent := false, delivered := true,
              failed := false },
          Event.callbackReceived
            { id := e.messageId, peerId := sp.id, text := pt,
              timestamp := e.timestamp, sent := false, delivered := true,
              failed := false }], ?_, ?_⟩
        · simp [hsec, hdec, hstore]
        · intro ev hev
          simp only [List.mem_cons, List.not_mem_nil, or_false] at hev
          rcases hev with hev | hev <;> subst hev <;> rfl

/-- Claim C4 (amended).  For a received envelope that parses, validates
and is not a duplicate, and provided the handler is not aborted by a
storage error, the receive path transmits a relay copy exactly when
`ttl > 0` — including when the sender is unknown or decryption fails —
and every transmitted relay copy serializes the input envelope with
`ttl - 1 ≥ 0`: an envelope received with `ttl = 0` is never relayed and
no envelope with negative TTL is constructed for transmission. -/
theorem c4_relay_iff_ttl_positive (cr : CryptoModel) (storeOk : Message → Bool)
    (connected : List String) (sendOk : String → Bool) (cache : DupCache)
    (senderId : String) (data : List Nat) (peers : List (String × Peer))
    (now : Nat) (e : MessageEnvelope)
    (hbytes : ∀ b ∈ data, b < 256)
    (hdes : deserializeEnvelope data = .ok e)
    (hnodup : isDuplicate cache e.messageId = false)
    (hstore : ∀ m, storeOk m = true) :
    ((∃ d targets, Event.transmit d targets ∈
        (handleIncomingMessage cr storeOk connected sendOk cache senderId data
          peers now).2) ↔ 0 < e.ttl) ∧
    (∀ d targets, Event.transmit d targets ∈
        (handleIncomingMessage cr storeOk connected sendOk cache senderId data
          peers now).2 →
      serializeEnvelope { e with ttl := e.ttl - 1 } = .ok d ∧
      targets = connected.filter (fun p => p ≠ senderId) ∧
      0 ≤ ({ e with ttl := e.ttl - 1 } : MessageEnvelope).ttl) := by
  have hvalid := deserializeEnvelope_ok_valid data e hbytes hdes
  have hval := validateEnvelope_ok e hvalid
  obtain ⟨pre, hevents, hpre⟩ := handleIncoming_events_shape cr storeOk connected
    sendOk cache senderId data peers now e hdes hval hnodup hstore
  by_cases httl : e.ttl > 0
  · rw [if_pos httl, relayMessage_eq connected sendOk e senderId hvalid httl]
      at hevents
    constructor
    · constructor
      · intro _
        exact httl
      · intro _
        exact ⟨wireBytes { e with ttl := e.ttl - 1 },
          connected.filter (fun p => p ≠ senderId), by rw [hevents]; simp⟩
    · intro d targets hmem
      rw [hevents] at hmem
      rcases List.mem_append.mp hmem with hmem | hmem
      · exact absurd (hpre _ hmem) (by simp [isTransmitEvent])
      · simp only [List.mem_singleton] at hmem
        injection hmem with h1 h2
        subst h1
        subst h2
        refine ⟨serializeEnvelope_ok _ (ValidEnvelope_decrement e hvalid httl),
          rfl, ?_⟩
        show (0 : Int) ≤ e.ttl - 1
        omega
  · rw [if_neg httl, List.append_nil] at hevents
    constructor
    · constructor
      · rintro ⟨d, t, hmem⟩
        rw [hevents] at hmem
        exact absurd (hpre _ hmem) (by simp [isTransmitEvent])
      · intro h
        exact absurd h httl
    · intro d targets hmem
      rw [hevents] at hmem
      exact absurd (hpre _ hmem) (by simp [isTransmitEvent])

set_option maxHeartbeats 2000000 in
/-- Claim C4, witness.  The theorem applied at the concrete fixture: the
incoming `ttl = 5` envelope is relayed (and the relay copy serializes
`ttl = 4`). -/
theorem c4_relay_iff_ttl_positive_witness :
    (∀ b ∈ rxData, b < 256) ∧ deserializeEnvelope rxData = .ok rxEnvelope ∧
    isDuplicate [] rxEnvelope.messageId = false ∧
    (((∃ d targets, Event.transmit d targets ∈
        (handleIncomingMessage rxCrypto (fun _ => true) ["p2"] (fun _ => true)
          [] "p1" rxData rxPeers 0).2) ↔ 0 < rxEnvelope.ttl) ∧
    (∀ d targets, Event.transmit d targets ∈
        (handleIncomingMessage rxCrypto (fun _ => true) ["p2"] (fun _ => true)
          [] "p1" rxData rxPeers 0).2 →
      serializeEnvelope { rxEnvelope with ttl := rxEnvelope.ttl - 1 } = .ok d ∧
      targets = ["p2"].filter (fun p => p ≠ "p1") ∧
      0 ≤ ({ rxEnvelope with ttl := rxEnvelope.ttl - 1 } : MessageEnvelope).ttl)) :=
  ⟨by decide, by decide, by decide,
    c4_relay_iff_ttl_positive rxCrypto (fun _ => true) ["p2"] (fun _ => true)
      [] "p1" rxData rxPeers 0 rxEnvelope (by decide) (by decide) (by decide)
      (fun _ => rfl)⟩

set_option maxHeartbeats 2000000 in
/-- Claim C4, counterexample to the claim as stated.  A storage error
after successful decryption aborts the handler before the relay: the
fixture envelope arrives with `ttl = 5 > 0`, yet nothing is
transmitted. -/
theorem c4_storage_failure_blocks_relay_counterexample :
    0 < rxEnvelope.ttl ∧ deserializeEnvelope rxData = .ok rxEnvelope ∧
    ((handleIncomingMessage rxCrypto (fun _ => false) ["p2"] (fun _ => true)
        [] "p1" rxData rxPeers 0).2.filter isTransmitEvent) = [] := by
  refine ⟨by decide, by decide, by decide⟩

/-! ## Claim C9: storage errors on the receive path -/

/-- Claim C9 (amended).  A storage error while persisting a successfully
decrypted message does not propagate (the handler catches it and
returns normally) and the duplicate-cache marking persists, but it
aborts the rest of processing for that envelope: the only emitted event
is the store attempt — the message-received callback is not invoked and
no relay transmission occurs, regardless of the TTL. -/
theorem c9_storage_error_aborts_receive (cr : CryptoModel)
    (storeOk : Message → Bool) (connected : List String)
    (sendOk : String → Bool) (cache : DupCache) (senderId : String)
    (data : List Nat) (peers : List (String × Peer)) (now : Nat)
    (e : MessageEnvelope) (sp : Peer) (secret : List Nat) (plaintext : String)
    (hbytes : ∀ b ∈ data, b < 256)
    (hdes : deserializeEnvelope data = .ok e)
    (hnodup : isDuplicate cache e.messageId = false)
    (hres : resolveSenderPeer cr peers e.senderId senderId = some sp)
    (hsec : sp.sharedSecret = some secret)
    (hdec : cr.decryptMessage
      { ciphertext := e.encryptedPayload, nonce := e.nonce, tag := e.tag }
      secret = some plaintext)
    (hstore : storeOk
      { id := e.messageId, peerId := sp.id, text := plaintext,
        timestamp := e.timestamp, sent := false, delivered := true,
        failed := false } = false) :
    handleIncomingMessage cr storeOk connected sendOk cache senderId data
      peers now
      = (markAsProcessed cache e.messageId now,
        [Event.store
          { id := e.messageId, peerId := sp.id, text := plaintext,
            timestamp := e.timestamp, sent := false, delivered := true,
            failed := false }]) := by
  have hval := validateEnvelope_ok e (deserializeEnvelope_ok_valid data e hbytes hdes)
  simp [handleIncomingMessage, hdes, hval, hnodup, hres, hsec, hdec, hstore]

set_option maxHeartbeats 2000000 in
/-- Claim C9, witness.  The theorem applied at the concrete fixture with a
failing store: the handler returns the marked cache and only the store
attempt. -/
theorem c9_storage_error_aborts_receive_witness :
    (∀ b ∈ rxData, b < 256) ∧ deserializeEnvelope rxData = .ok rxEnvelope ∧
    resolveSenderPeer rxCrypto rxPeers rxEnvelope.senderId "p1" = some rxPeer ∧
    handleIncomingMessage rxCrypto (fun _ => false) ["p2"] (fun _ => true)
      [] "p1" rxData rxPeers 0
      = (markAsProcessed [] rxEnvelope.messageId 0,
        [Event.store
          { id := rxEnvelope.messageId, peerId := rxPeer.id, text := "hi",
            timestamp := rxEnvelope.timestamp, sent := false,
            delivered := true, failed := false }]) :=
  ⟨by decide, by decide, by decide,
    c9_storage_error_aborts_receive rxCrypto (fun _ => false) ["p2"]
      (fun _ => true) [] "p1" rxData rxPeers 0 rxEnvelope rxPeer [3] "hi"
      (by decide) (by decide) (by decide) (by decide) (by decide) (by decide)
      (by decide)⟩

set_option maxHeartbeats 2000000 in
/-- Claim C9, counterexample to the claim as stated.  With a failing
store, the fixture message is decrypted and its persistence attempted,
but the received-message callback never fires and nothing is relayed:
processing does not continue past the storage error. -/
theorem c9_storage_failure_counterexample :
    ((handleIncomingMessage rxCrypto (fun _ => false) ["p2"] (fun _ => true)
        [] "p1" rxData rxPeers 0).2.filter isStoreEvent).length = 1 ∧
    countReceivedFor
      (handleIncomingMessage rxCrypto (fun _ => false) ["p2"] (fun _ => true)
        [] "p1" rxData rxPeers 0).2 rxEnvelope.messageId = 0 ∧
    ((handleIncomingMessage rxCrypto (fun _ => false) ["p2"] (fun _ => true)
        [] "p1" rxData rxPeers 0).2.filter isTransmitEvent) = [] := by
  refine ⟨by decide, by decide, by decide⟩

/-! ## Claim C7: send-path input validation -/

/-- Claim C7 (amended).  `sendMessage` validates in a cascade: text longer
than 500 UTF-16 code units (JavaScript `string.length`) fails with the
too-long error; empty text fails with the empty-message error; an
unknown recipient fails with the unknown-peer error; a recipient
without a shared secret fails with the no-shared-secret error.  In each
case the error goes to the caller synchronously and no event is emitted:
nothing is encrypted, persisted or transmitted. -/
theorem c7_send_input_validation (cr : CryptoModel) (storeOk : Message → Bool)
    (connected : List String) (sendOk : String → Bool) (recipientId : String)
    (text : String) (peers : List (String × Peer)) (messageId : String)
    (timestamp : Nat) :
    (utf16Length text > MAX_MESSAGE_LENGTH →
      sendMessage cr storeOk connected sendOk recipientId text peers messageId
        timestamp = (.error .tooLong, [])) ∧
    (utf16Length text = 0 →
      sendMessage cr storeOk connected sendOk recipientId text peers messageId
        timestamp = (.error .emptyMessage, [])) ∧
    (0 < utf16Length text → utf16Length text ≤ MAX_MESSAGE_LENGTH →
      peersGet peers recipientId = none →
      sendMessage cr storeOk connected sendOk recipientId text peers messageId
        timestamp = (.error .unknownPeer, [])) ∧
    (∀ recipient : Peer, 0 < utf16Length text →
      utf16Length text ≤ MAX_MESSAGE_LENGTH →
      peersGet peers recipientId = some recipient →
      recipient.sharedSecret = none →
      sendMessage cr storeOk connected sendOk recipientId text peers messageId
        timestamp = (.error .noSharedSecret, [])) := by
  refine ⟨?_, ?_, ?_, ?_⟩
  · intro h
    unfold sendMessage
    rw [if_pos h]
  · intro h0
    unfold sendMessage
    rw [if_neg (by simp [MAX_MESSAGE_LENGTH]; omega), if_pos h0]
  · intro hpos hle hnone
    simp only [sendMessage, hnone]
    rw [if_neg (by omega), if_neg (by omega)]
  · intro recipient hpos hle hsome hsec
    simp only [sendMessage, hsome, hsec]
    rw [if_neg (by omega), if_neg (by omega)]

/-- Claim C7, witness.  The empty-message case of the cascade at a
concrete call. -/
theorem c7_send_input_validation_witness :
    utf16Length "" = 0 ∧
    sendMessage rxCrypto (fun _ => true) [] (fun _ => true) "p1" "" rxPeers
      "m" 1 = (.error .emptyMessage, []) :=
  ⟨by decide,
    (c7_send_input_validation rxCrypto (fun _ => true) [] (fun _ => true)
      "p1" "" rxPeers "m" 1).2.1 (by decide)⟩

/-- The astral-plane character U+10000: one Unicode scalar value, two
UTF-16 code units. -/
def c7AstralText : String := String.mk (List.replicate 251 (Char.ofNat 65536))

set_option maxHeartbeats 1000000 in
set_option maxRecDepth 4000 in
/-- Claim C7, counterexample to the claim as stated.  The claim counts
length in Unicode scalar values; the source counts JavaScript string
length, i.e. UTF-16 code units.  A text of 251 astral characters has
251 scalar values (within the 500 limit), so by the claim the cascade
should pass it to the recipient lookup and fail with unknown-peer on an
empty peer table — but the code fails with too-long (502 code units). -/
theorem c7_scalar_length_counterexample :
    c7AstralText.toList.length = 251 ∧ utf16Length c7AstralText = 502 ∧
    (sendMessage rxCrypto (fun _ => true) [] (fun _ => true) "nobody"
      c7AstralText [] "m" 1).1 = .error .tooLong ∧
    SendError.tooLong ≠ SendError.unknownPeer := by
  refine ⟨by decide, by decide, by decide, by decide⟩

/-! ## Claim C8: the retry queue -/

theorem processRetryQueue_append (connected : List String)
    (sendOk : String → Bool) (now : Nat) (q₁ q₂ : RetryQueue) :
    processRetryQueue connected sendOk now (q₁ ++ q₂)
      = ((processRetryQueue connected sendOk now q₁).1
          ++ (processRetryQueue connected sendOk now q₂).1,
         (processRetryQueue connected sendOk now q₁).2
          ++ (processRetryQueue connected sendOk now q₂).2) := by
  induction q₁ with
  | nil => simp [processRetryQueue]
  | cons entry rest ih =>
    simp only [List.cons_append, processRetryQueue, ih]
    cases hk : (processRetryEntry connected sendOk now entry).1 <;>
      simp [hk, ih, List.append_assoc]

/-- Claim C8.  Retry-queue semantics: an entry whose retry time has not
arrived is untouched by the tick; a due entry is retransmitted (to all
connected peers, with the originally serialized bytes); on success it
is removed and the delivered status is reported; on failure it is
removed with a failed status report once `attempts` reaches
`MAX_SEND_RETRIES = 3`, and otherwise rescheduled with exponential
backoff `RETRY_BASE_DELAY_MS * 2 ^ attempts` (base 1 s); enqueueing a
fresh message records the original serialized envelope with zero
attempts, first due after the base delay. -/
theorem c8_retry_queue_semantics (connected : List String)
    (sendOk : String → Bool) (now : Nat) (q₁ q₂ : RetryQueue) (id : String)
    (qm : QueuedMessage) :
    (now < qm.nextRetryTime →
      processRetryQueue connected sendOk now (q₁ ++ (id, qm) :: q₂)
        = ((processRetryQueue connected sendOk now q₁).1
            ++ (id, qm) :: (processRetryQueue connected sendOk now q₂).1,
           (processRetryQueue connected sendOk now q₁).2
            ++ (processRetryQueue connected sendOk now q₂).2)) ∧
    (qm.nextRetryTime ≤ now → connected.any sendOk = true →
      processRetryQueue connected sendOk now (q₁ ++ (id, qm) :: q₂)
        = ((processRetryQueue connected sendOk now q₁).1
            ++ (processRetryQueue connected sendOk now q₂).1,
           (processRetryQueue connected sendOk now q₁).2
            ++ Event.transmit qm.serialized connected
            :: Event.callbackStatus id true
            :: (processRetryQueue connected sendOk now q₂).2)) ∧
    (qm.nextRetryTime ≤ now → connected.any sendOk = false →
      MAX_SEND_RETRIES ≤ qm.attempts + 1 →
      processRetryQueue connected sendOk now (q₁ ++ (id, qm) :: q₂)
        = ((processRetryQueue connected sendOk now q₁).1
            ++ (processRetryQueue connected sendOk now q₂).1,
           (processRetryQueue connected sendOk now q₁).2
            ++ Event.transmit qm.serialized connected
            :: Event.callbackStatus id false
            :: (processRetryQueue connected sendOk now q₂).2)) ∧
    (qm.nextRetryTime ≤ now → connected.any sendOk = false →
      qm.attempts + 1 < MAX_SEND_RETRIES →
      processRetryQueue connected sendOk now (q₁ ++ (id, qm) :: q₂)
        = ((processRetryQueue connected sendOk now q₁).1
            ++ (id, { qm with
                      attempts := qm.attempts + 1,
                      nextRetryTime :=
                        now + RETRY_BASE_DELAY_MS * 2 ^ (qm.attempts + 1) })
            :: (processRetryQueue connected sendOk now q₂).1,
           (processRetryQueue connected sendOk now q₁).2
            ++ Event.transmit qm.serialized connected
            :: (processRetryQueue connected sendOk now q₂).2)) ∧
    (∀ (q : RetryQueue) (mid pid : String) (env : MessageEnvelope)
        (ser : List Nat) (t : Nat), (∀ p ∈ q, p.1 ≠ mid) →
      queueMessageForRetry q mid pid env ser t
        = q ++ [(mid, { messageId := mid, peerId := pid,
                        envelope := env, serialized := ser,
                        attempts := 0,
                        nextRetryTime := t + RETRY_BASE_DELAY_MS })]) := by
  refine ⟨?_, ?_, ?_, ?_, ?_⟩
  · intro hdue
    rw [processRetryQueue_append]
    simp only [processRetryQueue, processRetryEntry, transmitToAllPeers,
      transmitTargets, ge_iff_le]
    rw [if_neg (by omega)]
    simp
  · intro hdue hok
    rw [processRetryQueue_append]
    simp only [processRetryQueue, processRetryEntry, transmitToAllPeers,
      transmitTargets, ge_iff_le]
    rw [if_pos hdue, if_pos hok]
    simp
  · intro hdue hfail hmax
    rw [processRetryQueue_append]
    simp only [processRetryQueue, processRetryEntry, transmitToAllPeers,
      transmitTargets, ge_iff_le]
    rw [if_pos hdue]
    rw [if_neg (by simp [hfail]), if_pos hmax]
    simp
  · intro hdue hfail hmax
    rw [processRetryQueue_append]
    simp only [processRetryQueue, processRetryEntry, transmitToAllPeers,
      transmitTargets, ge_iff_le]
    rw [if_pos hdue]
    rw [if_neg (by simp [hfail]), if_neg (by omega)]
    simp
  · intro q mid pid env ser t hfresh
    unfold queueMessageForRetry jsMapSet
    rw [if_neg (by
      simp only [List.any_eq_true, decide_eq_true_eq, not_exists]
      rintro p ⟨hp, hpe⟩
      exact hfresh p hp hpe)]

/-- Claim C8, witness.  A due entry whose third retry fails is removed and
reported failed. -/
theorem c8_retry_queue_semantics_witness :
    (1000 : Nat) ≤ 1000 ∧ (["p2"].any (fun _ => false)) = false ∧
    MAX_SEND_RETRIES ≤ 2 + 1 ∧
    processRetryQueue ["p2"] (fun _ => false) 1000
      ([] ++ ("m", { messageId := "m", peerId := "p1",
                     envelope := rxEnvelope, serialized := rxData,
                     attempts := 2, nextRetryTime := 1000 }) :: [])
      = ((processRetryQueue ["p2"] (fun _ => false) 1000 []).1
          ++ (processRetryQueue ["p2"] (fun _ => false) 1000 []).1,
         (processRetryQueue ["p2"] (fun _ => false) 1000 []).2
          ++ Event.transmit rxData ["p2"]
          :: Event.callbackStatus "m" false
          :: (processRetryQueue ["p2"] (fun _ => false) 1000 []).2) :=
  ⟨by decide, by decide, by decide,
    (c8_retry_queue_semantics ["p2"] (fun _ => false) 1000 [] [] "m"
      { messageId := "m", peerId := "p1",
        envelope := rxEnvelope, serialized := rxData,
        attempts := 2, nextRetryTime := 1000 }).2.2.1
      (by decide) (by decide) (by decide)⟩

/-! ## Claim C10: the send path stores exactly once, up front -/

/-- Claim C10.  The send path emits at most one storage write; when it
occurs it is the first effect, before any transmission attempt, with
`delivered = false` and `failed = false`; later status transitions go
only through the status callback (or the retry queue, which never
writes to storage); the stored record is never rewritten. -/
theorem c10_send_stores_once_first (cr : CryptoModel)
    (storeOk : Message → Bool) (connected : List String)
    (sendOk : String → Bool) (recipientId : String) (text : String)
    (peers : List (String × Peer)) (messageId : String) (timestamp : Nat) :
    ((sendMessage cr storeOk connected sendOk recipientId text peers messageId
        timestamp).2 = [] ∨
     ∃ m : Message, m.id = messageId ∧ m.delivered = false ∧ m.failed = false ∧
       ((sendMessage cr storeOk connected sendOk recipientId text peers
          messageId timestamp).2 = [Event.store m] ∨
        ∃ d, (sendMessage cr storeOk connected sendOk recipientId text peers
            messageId timestamp).2
            = [Event.store m, Event.transmit d connected,
               Event.queueRetry messageId] ∨
          (sendMessage cr storeOk connected sendOk recipientId text peers
            messageId timestamp).2
            = [Event.store m, Event.transmit d connected,
               Event.callbackStatus messageId true])) ∧
    (∀ (q : RetryQueue) (now : Nat),
      ((processRetryQueue connected sendOk now q).2.filter isStoreEvent) = []) := by
  constructor
  · simp only [sendMessage, transmitToAllPeers, transmitTargets]
    repeat' split
    all_goals
      first
        | exact Or.inl rfl
        | exact Or.inr ⟨_, rfl, rfl, rfl, Or.inl rfl⟩
        | exact Or.inr ⟨_, rfl, rfl, rfl, Or.inr ⟨_, Or.inl rfl⟩⟩
        | exact Or.inr ⟨_, rfl, rfl, rfl, Or.inr ⟨_, Or.inr rfl⟩⟩
  · intro q now
    induction q with
    | nil => rfl
    | cons entry rest ih =>
      have hentry : ((processRetryEntry connected sendOk now entry).2.filter
          isStoreEvent) = [] := by
        simp only [processRetryEntry, transmitToAllPeers, transmitTargets]
        repeat' split
        all_goals rfl
      simp only [processRetryQueue]
      cases hk : (processRetryEntry connected sendOk now entry).1 <;>
        simp [List.filter_append, hentry, ih]

end EmergencyChat
